import Mathlib

/-!
# Verification of the structure-chart diagram compiler

Shallow embedding of `src/extensions/structure_chart.py`
(`StructureChartGenerator` and `StructureChartPreprocessor`) together with
theorems settling the specification claims about it.

Conventions of the embedding:
* Python strings are Lean `String`s; Python `str` helpers (`strip`, `split`,
  `split(None, n)`, `strip('"')`) are re-implemented below with Python's
  documented semantics over the ASCII whitespace set.
* Python numbers appearing in layout arithmetic are modelled as `ℚ`
  (every coordinate produced by the layout is an exact binary rational,
  in fact an integer, so `ℚ` is an exact model of the `float` values).
* Python exceptions (`IndexError`, `KeyError`, `RecursionError`) are modelled
  with `Except PyErr`; a function that cannot raise returns plainly.
* Python dicts are insertion-ordered association lists; updating an existing
  key keeps its place in the order, as Python dicts do.
-/

namespace StructureChart

instance {ε : Type u} {α : Type v} [DecidableEq ε] [DecidableEq α] :
    DecidableEq (Except ε α) := fun
  | .error e, .error e' => decidable_of_iff (e = e') (by simp)
  | .error _, .ok _ => Decidable.isFalse (by simp)
  | .ok _, .error _ => Decidable.isFalse (by simp)
  | .ok a, .ok a' => decidable_of_iff (a = a') (by simp)

/-- The Python exceptions that can escape the code under study. -/
inductive PyErr where
  | indexError : PyErr
  | keyError : PyErr
  | recursionError : PyErr
deriving Repr, DecidableEq

/-! ## Python string primitives -/

/-- Python's whitespace set for `str.strip`/`str.split` (ASCII part). -/
def isPyWs (c : Char) : Bool :=
  c == ' ' || c == '\t' || c == '\n' || c == '\x0d' || c == '\x0b' || c == '\x0c'

/-- `str.lstrip()` on a character list. -/
def pyLstripL (cs : List Char) : List Char := cs.dropWhile isPyWs

/-- `str.rstrip()` on a character list. -/
def pyRstripL (cs : List Char) : List Char :=
  (cs.reverse.dropWhile isPyWs).reverse

/-- `str.strip()` on a character list. -/
def pyStripL (cs : List Char) : List Char := pyRstripL (pyLstripL cs)

/-- `str.lstrip()`. -/
def pyLstrip (s : String) : String := String.mk (pyLstripL s.toList)

/-- `str.rstrip()`. -/
def pyRstrip (s : String) : String := String.mk (pyRstripL s.toList)

/-- `str.strip()`. -/
def pyStrip (s : String) : String := String.mk (pyStripL s.toList)

/-- `str.strip('"')`: remove every leading and trailing double-quote char. -/
def stripQuotes (s : String) : String :=
  String.mk ((((s.toList.dropWhile (· = '"')).reverse.dropWhile (· = '"')).reverse))

/-- One step of Python `str.split(None, maxsplit)`: `none` maxsplit means
unlimited.  Leading whitespace is discarded; after `maxsplit` splits the
remainder (with its leading whitespace discarded) is returned whole. -/
def pySplitWsAux (fuel : ℕ) (cs : List Char) (maxsplit : Option ℕ) : List String :=
  match fuel with
  | 0 => []
  | fuel + 1 =>
    let cs := cs.dropWhile isPyWs
    if cs.isEmpty then []
    else match maxsplit with
      | some 0 => [String.mk cs]
      | _ =>
        let tok := cs.takeWhile (fun c => ¬ isPyWs c)
        let rest := cs.dropWhile (fun c => ¬ isPyWs c)
        String.mk tok :: pySplitWsAux fuel rest (maxsplit.map (· - 1))

/-- Python `str.split(None, maxsplit)` (whitespace split). -/
def pySplitWs (s : String) (maxsplit : Option ℕ) : List String :=
  pySplitWsAux (s.toList.length + 1) s.toList maxsplit

/-- Character-count length (`len` in Python). -/
def charLen (s : String) : ℕ := s.toList.length

/-- `s.startswith(pre)`. -/
def pyStartsWith (s pre : String) : Bool := s.toList.take pre.toList.length == pre.toList

/-- Worker for `str.split(sep)` with a non-empty separator: scan left to
right, cutting at each occurrence of the separator. -/
def pySplitOnAux (sep : List Char) : ℕ → List Char → List Char → List String
  | 0, _, acc => [String.mk acc.reverse]
  | fuel + 1, cs, acc =>
    if cs.take sep.length = sep ∧ sep ≠ [] then
      String.mk acc.reverse :: pySplitOnAux sep fuel (cs.drop sep.length) []
    else match cs with
      | [] => [String.mk acc.reverse]
      | c :: rest => pySplitOnAux sep fuel rest (c :: acc)

/-- Python `str.split(sep)` for a non-empty literal separator (every
occurrence splits; `''.split(sep) = ['']`). -/
def pySplitOn (s sep : String) : List String :=
  pySplitOnAux sep.toList (s.toList.length + 1) s.toList []

/-- A `\w` character of the module-id regexes (ASCII reading of Python `\w`). -/
def isWordChar (c : Char) : Bool := c.isAlphanum || c == '_'

/-- Drop a literal prefix, or fail. -/
def dropLit (lit : String) (cs : List Char) : Option (List Char) :=
  if cs.take lit.length = lit.toList then some (cs.drop lit.length) else none

/-- Match `\s+` (at least one whitespace char), dropping the run. -/
def takeWs (cs : List Char) : Option (List Char) :=
  match cs with
  | c :: rest => if isPyWs c then some (rest.dropWhile isPyWs) else none
  | [] => none

/-- Match `(\w+)` greedily (at least one word char). -/
def takeWord (cs : List Char) : Option (String × List Char) :=
  let w := cs.takeWhile isWordChar
  if w.isEmpty then none
  else some (String.mk w, cs.dropWhile isWordChar)

/-- Match `\s+(\w+)\s+"([^"]+)"` — the common tail of the `module`/`library`/
`storage` declaration regexes (`re.match` ignores anything after the closing
quote). -/
def matchIdLabel (cs : List Char) : Option (String × String) :=
  match takeWs cs with
  | none => none
  | some cs =>
    match takeWord cs with
    | none => none
    | some (ident, cs) =>
      match takeWs cs with
      | none => none
      | some cs =>
        match cs with
        | '"' :: cs2 =>
          let lbl := cs2.takeWhile (· ≠ '"')
          if lbl.isEmpty then none
          else match cs2.dropWhile (· ≠ '"') with
            | '"' :: _ => some (ident, String.mk lbl)
            | _ => none
        | _ => none

/-- `re.match(r'(module|library|storage)\s+(\w+)\s+"([^"]+)"', content)` after
the keyword has been checked: drop the keyword literal, match the tail. -/
def matchDecl (kw : String) (content : String) : Option (String × String) :=
  match dropLit kw content.toList with
  | none => none
  | some cs => matchIdLabel cs

/-! ## Data model (`StructureChartGenerator.__init__` collections) -/

/-- One entry of `self.modules`: the dict
`{'id', 'label', 'level', 'type'}`, to which layout later adds `'x'`/`'y'`
and overwrites `'level'`.  `pos = some (x, lvl)` models the presence of the
`'x'`/`'y'` keys (with `y = lvl * (MODULE_HEIGHT + MODULE_SPACING_Y)`). -/
structure ModuleData where
  label : String
  parseLevel : ℕ
  mtype : String
  pos : Option (ℚ × ℕ) := none
deriving Repr, DecidableEq

/-- One entry of `self.connections`. -/
structure Connection where
  src : String
  dst : String
  ctype : String
  direction : String
  clabel : String
deriving Repr, DecidableEq

/-- One entry of `self.conditionals`. -/
structure Conditional where
  src : String
  toList : List String
deriving Repr, DecidableEq

/-- One entry of `self.storages`. -/
structure StorageData where
  sid : String
  slabel : String
  slevel : ℕ
deriving Repr, DecidableEq

/-- The generator's mutable collections. -/
structure ChartState where
  modules : List (String × ModuleData) := []
  connections : List Connection := []
  conditionals : List Conditional := []
  loops : List (List String) := []
  storages : List StorageData := []
  levels : List (ℕ × List String) := []
deriving Repr, DecidableEq

/-- Python-dict assignment `d[k] = v` on an insertion-ordered assoc list:
an existing key keeps its position, a new key goes to the end. -/
def dictSet {α : Type} [DecidableEq α] {β : Type} (d : List (α × β)) (k : α) (v : β) :
    List (α × β) :=
  if (d.lookup k).isSome then
    d.map (fun p => if p.1 = k then (p.1, v) else p)
  else d ++ [(k, v)]

/-- `self.levels.setdefault(level, []).append(mid)` pattern used by the parser
(`if level not in self.levels: self.levels[level] = []` then `append`). -/
def levelsAdd (d : List (ℕ × List String)) (lvl : ℕ) (mid : String) :
    List (ℕ × List String) :=
  match d.lookup lvl with
  | some ids => dictSet d lvl (ids ++ [mid])
  | none => d ++ [(lvl, [mid])]

/-! ## The parser (`StructureChartGenerator.parse`) -/

/-- `_parse_module` / `_parse_library` (they differ only in the stored type). -/
def parseModuleLike (kw mtype : String) (content : String) (level : ℕ)
    (st : ChartState) : ChartState :=
  match matchDecl kw content with
  | none => st
  | some (mid, label) =>
    { st with
      modules := dictSet st.modules mid
        { label := label, parseLevel := level, mtype := mtype, pos := none }
      levels := levelsAdd st.levels level mid }

/-- `_parse_storage`. -/
def parseStorage (content : String) (level : ℕ) (st : ChartState) : ChartState :=
  match matchDecl "storage" content with
  | none => st
  | some (sid, label) =>
    { st with storages := st.storages ++ [⟨sid, label, level⟩] }

/-- `_parse_conditional`: `content.split()[1:]`, needs at least two parts. -/
def parseConditional (content : String) (st : ChartState) : ChartState :=
  match (pySplitWs content none).drop 1 with
  | fromId :: to1 :: toRest =>
    { st with conditionals := st.conditionals ++ [⟨fromId, to1 :: toRest⟩] }
  | _ => st

/-- `_parse_loop`: `re.match(r'loop\s+over\s+(.+)', content)` then
`group(1).split()`. -/
def parseLoop (content : String) (st : ChartState) : ChartState :=
  match dropLit "loop" content.toList with
  | none => st
  | some cs =>
    match takeWs cs with
    | none => st
    | some cs =>
      match dropLit "over" cs with
      | none => st
      | some cs =>
        match takeWs cs with
        | none => st
        | some cs =>
          if cs.isEmpty then st
          else { st with loops := st.loops ++ [pySplitWs (String.mk cs) none] }

/-- `_parse_connection` applied to the line content; returns the parsed
connection (`none` when the line is silently discarded).  Raises
`IndexError` — as the Python does at `rest[0]` — when nothing but
whitespace follows the arrow. -/
def parseConnectionContent (content : String) : Except PyErr (Option Connection) :=
  match pySplitOn content "->" with
  | [p0, p1] =>
    match pySplitWs (pyStrip p1) (some 3) with
    | [] => Except.error PyErr.indexError
    | dst :: restTail =>
      let fromId := pyStrip p0
      match restTail with
      | [] => Except.ok (some ⟨fromId, dst, "normal", "forward", ""⟩)
      | [t1] => Except.ok (some ⟨fromId, dst, t1, "forward", ""⟩)
      | t1 :: t2 :: rest3 =>
        if t2 = "forward" ∨ t2 = "backward" then
          match rest3 with
          | [] => Except.ok (some ⟨fromId, dst, t1, t2, ""⟩)
          | t3 :: _ => Except.ok (some ⟨fromId, dst, t1, t2, stripQuotes t3⟩)
        else Except.ok (some ⟨fromId, dst, t1, "forward", stripQuotes t2⟩)
  | _ => Except.ok none

/-- `_parse_connection`'s effect on the state. -/
def parseConnectionLine (content : String) (st : ChartState) :
    Except PyErr ChartState :=
  match parseConnectionContent content with
  | Except.error e => Except.error e
  | Except.ok none => Except.ok st
  | Except.ok (some c) => Except.ok { st with connections := st.connections ++ [c] }

/-- The per-line dispatch of `parse` (keyword checks in source order; the
`'->' in content` test is `len(content.split('->')) ≥ 2`). -/
def parseLine (st : ChartState) (line0 : String) : Except PyErr ChartState :=
  let line := pyRstrip line0
  if line.toList.isEmpty || pyStartsWith (pyStrip line) "#" then Except.ok st
  else
    let indent := charLen line - charLen (pyLstrip line)
    let level := indent / 2
    let content := pyStrip line
    if pyStartsWith content "module " then
      Except.ok (parseModuleLike "module" "module" content level st)
    else if pyStartsWith content "library " then
      Except.ok (parseModuleLike "library" "library" content level st)
    else if pyStartsWith content "storage " then
      Except.ok (parseStorage content level st)
    else if pyStartsWith content "conditional " then
      Except.ok (parseConditional content st)
    else if pyStartsWith content "loop " then
      Except.ok (parseLoop content st)
    else if 2 ≤ (pySplitOn content "->").length then
      parseConnectionLine content st
    else Except.ok st

/-- `parse`: strip the whole definition, split on newlines, fold the lines. -/
def parseChart (chartDef : String) : Except PyErr ChartState :=
  (pySplitOn (pyStrip chartDef) "\n").foldlM parseLine {}

/-! ## Exact rational arithmetic

The layout arithmetic uses Python floats; every value arising is an exact
(dyadic, in fact integer) rational, so `ℚ` models it exactly.  The field
operations on `ℚ` are `@[irreducible]`, so the embedding computes through
`mkRat`-phrased wrappers (proved equal to the field operations below),
keeping every concrete layout kernel-computable. -/

def qAdd (a b : ℚ) : ℚ := mkRat (a.num * b.den + b.num * a.den) (a.den * b.den)

def qSub (a b : ℚ) : ℚ := mkRat (a.num * b.den - b.num * a.den) (a.den * b.den)

def qMul (a b : ℚ) : ℚ := mkRat (a.num * b.num) (a.den * b.den)

/-- Python float division by 2 (always exact on the values arising here). -/
def qDiv2 (a : ℚ) : ℚ := mkRat a.num (a.den * 2)

def qNeg (a : ℚ) : ℚ := mkRat (-a.num) a.den

/-- Embed a Python int into the coordinate field. -/
def qOfNat (n : ℕ) : ℚ := mkRat n 1

theorem qAdd_eq (a b : ℚ) : qAdd a b = a + b := by
  have ha : ((a.den : ℚ)) ≠ 0 := by exact_mod_cast a.den_ne_zero
  have hb : ((b.den : ℚ)) ≠ 0 := by exact_mod_cast b.den_ne_zero
  conv_rhs => rw [← Rat.num_div_den a, ← Rat.num_div_den b]
  rw [div_add_div _ _ ha hb, qAdd, Rat.mkRat_eq_div]
  push_cast
  ring_nf

theorem qSub_eq (a b : ℚ) : qSub a b = a - b := by
  have ha : ((a.den : ℚ)) ≠ 0 := by exact_mod_cast a.den_ne_zero
  have hb : ((b.den : ℚ)) ≠ 0 := by exact_mod_cast b.den_ne_zero
  conv_rhs => rw [← Rat.num_div_den a, ← Rat.num_div_den b]
  rw [div_sub_div _ _ ha hb, qSub, Rat.mkRat_eq_div]
  push_cast
  ring_nf

theorem qMul_eq (a b : ℚ) : qMul a b = a * b := by
  conv_rhs => rw [← Rat.num_div_den a, ← Rat.num_div_den b]
  rw [div_mul_div_comm, qMul, Rat.mkRat_eq_div]
  push_cast
  ring_nf

theorem qDiv2_eq (a : ℚ) : qDiv2 a = a / 2 := by
  conv_rhs => rw [← Rat.num_div_den a]
  rw [div_div, qDiv2, Rat.mkRat_eq_div]
  push_cast
  ring_nf

theorem qNeg_eq (a : ℚ) : qNeg a = -a := by
  conv_rhs => rw [← Rat.num_div_den a, ← neg_div]
  rw [qNeg, Rat.mkRat_eq_div]
  push_cast
  ring_nf

theorem qOfNat_eq (n : ℕ) : qOfNat n = (n : ℚ) := by
  rw [qOfNat, Rat.mkRat_eq_div]
  push_cast
  ring_nf

/-! ## Layout constants -/

def MODULE_WIDTH : ℚ := 120
def MODULE_HEIGHT : ℚ := 50
def MODULE_SPACING_X : ℚ := 40
def MODULE_SPACING_Y : ℚ := 80

/-! ## Hierarchy resolver (`_calculate_positions`, first half) -/

/-- The connection scan of `_calculate_positions`: `children[parent].append(child)`
(creating the list on first sight) and `parents[child] = parent`
(an unconditional overwrite). -/
def applyConn (maps : List (String × List String) × List (String × String))
    (conn : Connection) : List (String × List String) × List (String × String) :=
  let children := dictSet maps.1 conn.src (((maps.1.lookup conn.src).getD []) ++ [conn.dst])
  let parents := dictSet maps.2 conn.dst conn.src
  (children, parents)

/-- Inner loop of the conditional scan: each branch child is appended to
`children[parent]` unless already present, and gets `parent` as parent only
if it has none yet. -/
def applyCondChild (parent : String)
    (maps : List (String × List String) × List (String × String))
    (child : String) : List (String × List String) × List (String × String) :=
  let cur := (maps.1.lookup parent).getD []
  let children :=
    if child ∈ cur then dictSet maps.1 parent cur
    else dictSet maps.1 parent (cur ++ [child])
  let parents :=
    if (maps.2.lookup child).isSome then maps.2
    else dictSet maps.2 child parent
  (children, parents)

/-- The conditional scan of `_calculate_positions`. -/
def applyCond (maps : List (String × List String) × List (String × String))
    (cond : Conditional) : List (String × List String) × List (String × String) :=
  cond.toList.foldl (applyCondChild cond.src) maps

/-- Build the `children`/`parents` maps: connections first (declaration
order), then conditionals. -/
def buildMaps (conns : List Connection) (conds : List Conditional) :
    List (String × List String) × List (String × String) :=
  conds.foldl applyCond (conns.foldl applyConn ([], []))

/-! ## Layout engine (`_position_tree`) -/

/-- `children.get(module_id, [])`. -/
def chGet (ch : List (String × List String)) (mid : String) : List String :=
  (ch.lookup mid).getD []

/-- In-place update `self.modules[mid]['x'] = x; ['y'] = …; ['level'] = lvl`. -/
def setPos (mods : List (String × ModuleData)) (mid : String) (x : ℚ) (lvl : ℕ) :
    List (String × ModuleData) :=
  mods.map (fun p => if p.1 = mid then (p.1, { p.2 with pos := some (x, lvl) }) else p)

/-- One pass of `_position_tree` over a sibling list, with the recursive
descent into children abstracted as `recur` (used at depth `yLevel + 1`). -/
def positionStep (ch : List (String × List String))
    (recur : List String → List (String × ModuleData) → ℚ → ℕ →
      Except PyErr (List (String × ModuleData) × ℚ)) :
    List String → List (String × ModuleData) → ℚ → ℕ →
      Except PyErr (List (String × ModuleData) × ℚ)
  | [], mods, x, _ => Except.ok (mods, x)
  | mid :: rest, mods, x, yLevel =>
    if (mods.lookup mid).isSome then
      let childIds := chGet ch mid
      if childIds.isEmpty then
        positionStep ch recur rest (setPos mods mid x yLevel)
          (qAdd (qAdd x MODULE_WIDTH) MODULE_SPACING_X) yLevel
      else
        match recur childIds mods x (yLevel + 1) with
        | Except.error e => Except.error e
        | Except.ok (mods1, childEnd) =>
          positionStep ch recur rest
            (setPos mods1 mid (qDiv2 (qSub (qAdd x childEnd) MODULE_WIDTH)) yLevel)
            childEnd yLevel
    else positionStep ch recur rest mods x yLevel

/-- `_position_tree` with an explicit recursion-depth budget modelling the
Python interpreter's recursion limit (exhaustion is `RecursionError`). -/
def positionTreeFuel (ch : List (String × List String)) (fuel : ℕ) :
    List String → List (String × ModuleData) → ℚ → ℕ →
      Except PyErr (List (String × ModuleData) × ℚ) :=
  Nat.rec (positionStep ch (fun _ _ _ _ => Except.error PyErr.recursionError))
    (fun _ ih => positionStep ch ih) fuel

/-- The interpreter's recursion headroom for `_position_tree`
(Python's default limit is 1000 frames). -/
def RECURSION_FUEL : ℕ := 1000

/-- `_calculate_positions`: build the maps, take the declared modules without
a parent as roots (declaration order), and run the tree layout from the
origin. -/
def calculatePositions (st : ChartState) : Except PyErr ChartState :=
  let maps := buildMaps st.connections st.conditionals
  let roots := (st.modules.map Prod.fst).filter (fun mid => (maps.2.lookup mid).isNone)
  match positionTreeFuel maps.1 RECURSION_FUEL roots st.modules 0 0 with
  | Except.error e => Except.error e
  | Except.ok (mods, _) => Except.ok { st with modules := mods }

/-! ## Rendering helpers -/

/-- The `y` value stored by `_position_tree`:
`y_level * (MODULE_HEIGHT + MODULE_SPACING_Y)`. -/
def levelY (lvl : ℕ) : ℚ := qMul (qOfNat lvl) (qAdd MODULE_HEIGHT MODULE_SPACING_Y)

/-- `m.get('level', 0)`: the layout level once positioned, else the
indentation level from parsing (the key always exists after parsing). -/
def getLevel (m : ModuleData) : ℕ :=
  match m.pos with
  | some (_, lvl) => lvl
  | none => m.parseLevel

/-- Numeral rendering used when interpolating coordinates into SVG text.
Stand-in for Python's `int`/`float` `repr` (Python prints `20.0` where this
prints `20`; no claim proved below depends on the digits, only on rendering
being a function of the value). -/
def fmtQ (q : ℚ) : String :=
  if q.den = 1 then toString q.num else toString q.num ++ "/" ++ toString q.den

/-- Exact division, through `Rat.divInt` so it kernel-computes. -/
def qDivQ (a b : ℚ) : ℚ := Rat.divInt (a.num * b.den) (a.den * b.num)

def qAbs (a : ℚ) : ℚ := mkRat a.num.natAbs a.den

/-- Modelled from the spec: deterministic rational stand-in for `math.pi`
(an ieee-754 transcendental constant with no exact rational value; no claim
proved below depends on its digits). -/
def piQ : ℚ := mkRat 355 113

/-- Modelled from the spec: deterministic rational stand-in for `math.atan2`
(ieee-754 transcendental; only determinism matters to the claims proved). -/
def atan2Q (y x : ℚ) : ℚ := qDivQ y (qAdd (qAdd (qAbs x) (qAbs y)) 1)

/-- Modelled from the spec: deterministic rational stand-in for `math.cos`. -/
def cosQ (t : ℚ) : ℚ := qSub 1 (qDiv2 (qMul t t))

/-- Modelled from the spec: deterministic rational stand-in for `math.sin`. -/
def sinQ (t : ℚ) : ℚ := qSub t (qDiv2 (qMul (qMul t t) t))

/-- Python `int(...)` on a float: truncation toward zero
(`Int.div` is T-division). -/
def pyTrunc (q : ℚ) : ℤ := q.num.tdiv q.den

/-- Python list subscription `l[k]`: non-negative indices from the front,
negative indices from the back, out of range is an `IndexError` (`none`). -/
def pyListGet (l : List ℚ) (k : ℤ) : Option ℚ :=
  if 0 ≤ k then l.get? k.toNat
  else if k.natAbs ≤ l.length then l.get? (l.length - k.natAbs)
  else none

/-- The fixed fractional position table of `_draw_connection`
(`line_positions = [0.3, 0.5, 0.7, 0.85]`). -/
def linePositions : List ℚ := [mkRat 3 10, mkRat 1 2, mkRat 7 10, mkRat 17 20]

/-- `offset_multiplier` as computed by `generate_svg` for the `i`-th of `n`
same-pair connections (`0` for a singleton, else `i - (n-1)/2`). -/
def offsetMultiplier (n i : ℕ) : ℚ :=
  if n = 1 then 0 else qSub (qOfNat i) (qDiv2 (qOfNat (n - 1)))

/-- `line_positions[min(int(offset_multiplier), len(line_positions) - 1)]`:
the fraction along the line at which the `data`/`control` indicator sits
(`none` models the `IndexError` raised for a large negative index). -/
def indicatorLinePosition (om : ℚ) : Option ℚ :=
  pyListGet linePositions (min (pyTrunc om) 3)

/-! ## SVG rendering (`_draw_*` and `generate_svg`) -/

def LIBRARY_MODULE_COLOR : String := "#e3f2fd"
def MODULE_COLOR : String := "#ffffff"
def STROKE_COLOR : String := "#333333"
def STORAGE_COLOR : String := "#fff9c4"

def joinSep (sep : String) : List String → String
  | [] => ""
  | [x] => x
  | x :: rest => x ++ sep ++ joinSep sep rest

/-- The greedy 16-characters-per-line label wrap of `_draw_module`. -/
def wrapWordsAux : List String → List String → List String → List String
  | lines, currentLine, [] =>
    if currentLine.isEmpty then lines else lines ++ [joinSep " " currentLine]
  | lines, currentLine, word :: rest =>
    let testLine := joinSep " " (currentLine ++ [word])
    if 16 < charLen testLine ∧ ¬ currentLine.isEmpty then
      wrapWordsAux (lines ++ [joinSep " " currentLine]) [word] rest
    else wrapWordsAux lines (currentLine ++ [word]) rest

def wrapLabel (label : String) : List String :=
  wrapWordsAux [] [] (pySplitWs label none)

/-- The `<text>` elements of `_draw_module` (one per wrapped line). -/
def moduleTextLines (x textStartY lineHeight : ℚ) : List (ℕ × String) → String
  | [] => ""
  | (i, line) :: rest =>
    let lineYv := qAdd textStartY (qMul (qOfNat i) lineHeight)
    "  <text x=\"" ++ fmtQ (qAdd x (qDiv2 MODULE_WIDTH)) ++ "\" y=\"" ++ fmtQ lineYv ++
      "\" text-anchor=\"middle\" dominant-baseline=\"middle\" " ++
      "font-family=\"Arial, sans-serif\" font-size=\"12\" fill=\"" ++ STROKE_COLOR ++
      "\" font-weight=\"500\">" ++ line ++ "</text>\n" ++
      moduleTextLines x textStartY lineHeight rest

/-- `_draw_module` (accessing `module['x']` raises `KeyError` when the module
was never positioned). -/
def drawModule (mid : String) (m : ModuleData) : Except PyErr String :=
  match m.pos with
  | none => Except.error PyErr.keyError
  | some (x, lvl) =>
    let y := levelY lvl
    let isLibrary := m.mtype = "library"
    let fillColor := if isLibrary then LIBRARY_MODULE_COLOR else MODULE_COLOR
    let lines := wrapLabel m.label
    let lineHeight : ℚ := 14
    let totalTextHeight := qMul (qOfNat lines.length) lineHeight
    let textStartY := qAdd (qAdd y (qDiv2 (qSub MODULE_HEIGHT totalTextHeight))) (qDiv2 lineHeight)
    let underlinePart :=
      if isLibrary then
        let underlineY := qAdd (qAdd textStartY (qMul (qOfNat (lines.length - 1)) lineHeight)) 8
        "  <line x1=\"" ++ fmtQ (qAdd x 15) ++ "\" y1=\"" ++ fmtQ underlineY ++
          "\" x2=\"" ++ fmtQ (qSub (qAdd x MODULE_WIDTH) 15) ++ "\" y2=\"" ++ fmtQ underlineY ++
          "\" stroke=\"" ++ STROKE_COLOR ++ "\" stroke-width=\"1.5\"/>\n"
      else ""
    Except.ok
      ("<g class=\"module\" data-module-id=\"" ++ mid ++ "\">\n" ++
       "  <rect x=\"" ++ fmtQ (qAdd x 2) ++ "\" y=\"" ++ fmtQ (qAdd y 2) ++
         "\" width=\"" ++ fmtQ MODULE_WIDTH ++ "\" height=\"" ++ fmtQ MODULE_HEIGHT ++
         "\" fill=\"#00000020\" stroke=\"none\" rx=\"3\"/>\n" ++
       "  <rect x=\"" ++ fmtQ x ++ "\" y=\"" ++ fmtQ y ++
         "\" width=\"" ++ fmtQ MODULE_WIDTH ++ "\" height=\"" ++ fmtQ MODULE_HEIGHT ++
         "\" fill=\"" ++ fillColor ++ "\" stroke=\"" ++ STROKE_COLOR ++
         "\" stroke-width=\"2\" rx=\"3\"/>\n" ++
       moduleTextLines x textStartY lineHeight lines.enum ++
       underlinePart ++
       "</g>\n")

/-- The data/control indicator block of `_draw_connection` (drawn along the
line at fraction `lp`). -/
def indicatorBlock (conn : Connection) (x1 y1 x2 y2 lp : ℚ) : String :=
  let angle := atan2Q (qSub y2 y1) (qSub x2 x1)
  let perpAngle := qAdd angle (qDiv2 piQ)
  let indicatorCenterX := qAdd (qAdd x1 (qMul (qSub x2 x1) lp)) (qMul (cosQ perpAngle) 12)
  let indicatorCenterY := qAdd (qAdd y1 (qMul (qSub y2 y1) lp)) (qMul (sinQ perpAngle) 12)
  let arrowLength : ℚ := 20
  let arrowAngle := if conn.direction = "backward" then qAdd angle piQ else angle
  let circleX := qSub indicatorCenterX (qDiv2 (qMul (cosQ arrowAngle) arrowLength))
  let circleY := qSub indicatorCenterY (qDiv2 (qMul (sinQ arrowAngle) arrowLength))
  let arrowTipX := qAdd indicatorCenterX (qDiv2 (qMul (cosQ arrowAngle) arrowLength))
  let arrowTipY := qAdd indicatorCenterY (qDiv2 (qMul (sinQ arrowAngle) arrowLength))
  let arrowLine :=
    "  <line x1=\"" ++ fmtQ circleX ++ "\" y1=\"" ++ fmtQ circleY ++
      "\" x2=\"" ++ fmtQ arrowTipX ++ "\" y2=\"" ++ fmtQ arrowTipY ++
      "\" stroke=\"" ++ STROKE_COLOR ++
      "\" stroke-width=\"1.5\" marker-end=\"url(#small-arrowhead)\"/>\n"
  let circlePart :=
    if conn.ctype = "data" then
      "  <circle cx=\"" ++ fmtQ circleX ++ "\" cy=\"" ++ fmtQ circleY ++
        "\" r=\"5\" fill=\"white\" stroke=\"" ++ STROKE_COLOR ++ "\" stroke-width=\"1.5\"/>\n"
    else if conn.ctype = "control" then
      "  <circle cx=\"" ++ fmtQ circleX ++ "\" cy=\"" ++ fmtQ circleY ++
        "\" r=\"5\" fill=\"" ++ STROKE_COLOR ++ "\" stroke=\"" ++ STROKE_COLOR ++
        "\" stroke-width=\"1.5\"/>\n"
    else ""
  arrowLine ++ circlePart

/-- The label block of `_draw_connection` for `data`/`control` connections. -/
def connLabelData (conn : Connection) (x1 y1 x2 y2 lp : ℚ) : String :=
  let angle := atan2Q (qSub y2 y1) (qSub x2 x1)
  let perpAngle := qAdd angle (qDiv2 piQ)
  let labelLineX := qAdd x1 (qMul (qSub x2 x1) lp)
  let labelLineY := qAdd y1 (qMul (qSub y2 y1) lp)
  let textWidth := qOfNat (charLen conn.clabel * 6)
  let labelOffset := qAdd (qAdd (qAdd (12 : ℚ) 20) 8) (qDiv2 textWidth)
  let labelX := qAdd labelLineX (qMul (cosQ perpAngle) labelOffset)
  let labelY := qAdd labelLineY (qMul (sinQ perpAngle) labelOffset)
  "  <text x=\"" ++ fmtQ labelX ++ "\" y=\"" ++ fmtQ labelY ++
    "\" font-family=\"Arial, sans-serif\" font-size=\"10\" fill=\"" ++ STROKE_COLOR ++
    "\" font-style=\"italic\">" ++ conn.clabel ++ "</text>\n"

/-- The label block of `_draw_connection` for other connection kinds. -/
def connLabelPlain (conn : Connection) (x1 y1 x2 y2 : ℚ) : String :=
  let angle := atan2Q (qSub y2 y1) (qSub x2 x1)
  let perpAngle := qAdd angle (qDiv2 piQ)
  let midX := qDiv2 (qAdd x1 x2)
  let midY := qDiv2 (qAdd y1 y2)
  let labelOffset : ℚ := 15
  let labelX := qAdd midX (qMul (cosQ perpAngle) labelOffset)
  let labelY := qAdd midY (qMul (sinQ perpAngle) labelOffset)
  "  <text x=\"" ++ fmtQ labelX ++ "\" y=\"" ++ fmtQ labelY ++
    "\" font-family=\"Arial, sans-serif\" font-size=\"10\" fill=\"" ++ STROKE_COLOR ++
    "\" font-style=\"italic\">" ++ conn.clabel ++ "</text>\n"

/-- `_draw_connection`: dangling endpoints yield the empty string *before*
any position is read; position table overflow raises `IndexError`; reading a
position of an unpositioned module raises `KeyError`. -/
def drawConnection (mods : List (String × ModuleData)) (conn : Connection)
    (om : ℚ) : Except PyErr String :=
  match mods.lookup conn.src, mods.lookup conn.dst with
  | some fm, some tm =>
    match fm.pos, tm.pos with
    | some (fx, flv), some (tx, tlv) =>
      let x1 := qAdd fx (qDiv2 MODULE_WIDTH)
      let y1 := qAdd (levelY flv) MODULE_HEIGHT
      let x2 := qAdd tx (qDiv2 MODULE_WIDTH)
      let y2 := levelY tlv
      let isDataControl := conn.ctype = "data" ∨ conn.ctype = "control"
      let indicatorRes : Except PyErr String :=
        if isDataControl then
          match indicatorLinePosition om with
          | none => Except.error PyErr.indexError
          | some lp => Except.ok (indicatorBlock conn x1 y1 x2 y2 lp)
        else Except.ok ""
      match indicatorRes with
      | Except.error e => Except.error e
      | Except.ok indicator =>
        let mainLine :=
          "  <line x1=\"" ++ fmtQ x1 ++ "\" y1=\"" ++ fmtQ y1 ++
            "\" x2=\"" ++ fmtQ x2 ++ "\" y2=\"" ++ fmtQ y2 ++
            "\" stroke=\"" ++ STROKE_COLOR ++
            "\" stroke-width=\"2\" marker-end=\"url(#arrowhead)\"/>\n"
        let labelPart :=
          if conn.clabel ≠ "" ∧ isDataControl then
            match indicatorLinePosition om with
            | some lp => connLabelData conn x1 y1 x2 y2 lp
            | none => ""
          else if conn.clabel ≠ "" then connLabelPlain conn x1 y1 x2 y2
          else ""
        Except.ok ("<g class=\"connection\">\n" ++ indicator ++ mainLine ++ labelPart ++ "</g>\n")
    | _, _ => Except.error PyErr.keyError
  | _, _ => Except.ok ""

/-- `_draw_loop`. -/
def drawLoop (mods : List (String × ModuleData)) (conns : List Connection)
    (moduleIds : List String) : Except PyErr String :=
  if moduleIds.isEmpty then Except.ok ""
  else
    match moduleIds.filterMap (fun mid => mods.lookup mid) with
    | [] => Except.ok ""
    | p0 :: prest =>
      let parentFromConn : Option ModuleData :=
        conns.findSome? (fun c =>
          if moduleIds.contains c.dst then
            if moduleIds.contains c.src then none
            else mods.lookup c.src
          else none)
      let parentModule : ModuleData :=
        match parentFromConn with
        | some pm => pm
        | none =>
          let loopLevel := (prest.map getLevel).foldl min (getLevel p0)
          let byLevel : Option ModuleData :=
            if 0 < loopLevel then
              mods.findSome? (fun p =>
                if getLevel p.2 = loopLevel - 1 then some p.2 else none)
            else none
          match byLevel with
          | some pm => pm
          | none => p0
      match parentModule.pos with
      | none => Except.error PyErr.keyError
      | some (px, plv) =>
        let parentCenterX := qAdd px (qDiv2 MODULE_WIDTH)
        let parentBottomY := qAdd (levelY plv) MODULE_HEIGHT
        let loopRadius : ℚ := 25
        let startX := qAdd (qSub parentCenterX loopRadius) 5
        let startY := qAdd parentBottomY 8
        let endX := qSub (qAdd parentCenterX loopRadius) 5
        let endY := qAdd parentBottomY 8
        Except.ok
          ("<g class=\"loop\">\n" ++
           "  <path d=\"M " ++ fmtQ startX ++ "," ++ fmtQ startY ++ " " ++
           "A " ++ fmtQ loopRadius ++ "," ++ fmtQ loopRadius ++ " 0 1 1 " ++
           fmtQ endX ++ "," ++ fmtQ endY ++ "\" " ++
           "fill=\"none\" stroke=\"" ++ STROKE_COLOR ++ "\" stroke-width=\"2\" " ++
           "marker-end=\"url(#arrowhead)\" stroke-dasharray=\"5,5\"/>\n" ++
           "</g>\n")

/-- `max(self.levels.keys())` (with the `if self.levels else 0` guard applied
by the callers). -/
def levelsMaxKey (levels : List (ℕ × List String)) : ℕ :=
  (levels.map Prod.fst).foldl max 0

/-- The `(x, y)` computed by `_draw_storage` for the storage at index
`position`. -/
def storagePosition (levels : List (ℕ × List String)) (position : ℕ) : ℚ × ℚ :=
  let maxLevel := if levels.isEmpty then 0 else levelsMaxKey levels
  (qAdd (qNeg (qDiv2 MODULE_WIDTH)) (qMul (qOfNat position) (qAdd MODULE_WIDTH MODULE_SPACING_X)),
   qMul (qOfNat (maxLevel + 1)) (qAdd MODULE_HEIGHT MODULE_SPACING_Y))

/-- `_draw_storage`. -/
def drawStorage (levels : List (ℕ × List String)) (storage : StorageData)
    (position : ℕ) : String :=
  let xy := storagePosition levels position
  let x := xy.1
  let y := xy.2
  let capHeight : ℚ := 8
  "<g class=\"storage\">\n" ++
  "  <rect x=\"" ++ fmtQ (qAdd x 2) ++ "\" y=\"" ++ fmtQ (qAdd y 2) ++
    "\" width=\"" ++ fmtQ MODULE_WIDTH ++ "\" height=\"" ++ fmtQ MODULE_HEIGHT ++
    "\" fill=\"#00000020\" stroke=\"none\" rx=\"15\"/>\n" ++
  "  <rect x=\"" ++ fmtQ x ++ "\" y=\"" ++ fmtQ y ++
    "\" width=\"" ++ fmtQ MODULE_WIDTH ++ "\" height=\"" ++ fmtQ MODULE_HEIGHT ++
    "\" fill=\"" ++ STORAGE_COLOR ++ "\" stroke=\"" ++ STROKE_COLOR ++
    "\" stroke-width=\"2\" rx=\"15\"/>\n" ++
  "  <ellipse cx=\"" ++ fmtQ (qAdd x (qDiv2 MODULE_WIDTH)) ++ "\" cy=\"" ++
    fmtQ (qAdd y capHeight) ++ "\" rx=\"" ++ fmtQ (qSub (qDiv2 MODULE_WIDTH) 4) ++
    "\" ry=\"" ++ fmtQ capHeight ++ "\" fill=\"none\" stroke=\"" ++ STROKE_COLOR ++
    "\" stroke-width=\"1.5\"/>\n" ++
  "  <text x=\"" ++ fmtQ (qAdd x (qDiv2 MODULE_WIDTH)) ++ "\" y=\"" ++
    fmtQ (qAdd (qAdd y (qDiv2 MODULE_HEIGHT)) 3) ++
    "\" text-anchor=\"middle\" dominant-baseline=\"middle\" " ++
    "font-family=\"Arial, sans-serif\" font-size=\"12\" fill=\"" ++ STROKE_COLOR ++
    "\" font-weight=\"500\">" ++ storage.slabel ++ "</text>\n" ++
  "</g>\n"

/-- The per-branch arrows of `_draw_conditional`: undeclared targets are
skipped, a declared but unpositioned target raises `KeyError`. -/
def condArrows (mods : List (String × ModuleData)) (diamondX diamondY diamondSize : ℚ) :
    List String → Except PyErr String
  | [] => Except.ok ""
  | t :: rest =>
    match mods.lookup t with
    | none => condArrows mods diamondX diamondY diamondSize rest
    | some tm =>
      match tm.pos with
      | none => Except.error PyErr.keyError
      | some (tx, tlv) =>
        let toX := qAdd tx (qDiv2 MODULE_WIDTH)
        let toY := levelY tlv
        match condArrows mods diamondX diamondY diamondSize rest with
        | Except.error e => Except.error e
        | Except.ok s =>
          Except.ok
            ("  <line x1=\"" ++ fmtQ diamondX ++ "\" y1=\"" ++ fmtQ (qAdd diamondY diamondSize) ++
             "\" x2=\"" ++ fmtQ toX ++ "\" y2=\"" ++ fmtQ toY ++
             "\" stroke=\"" ++ STROKE_COLOR ++
             "\" stroke-width=\"2\" marker-end=\"url(#arrowhead)\"/>\n" ++ s)

/-- The shadow polygon of `_draw_conditional`. -/
def condShadow (diamondX diamondY diamondSize shadowOffset : ℚ) : String :=
  "  <polygon points=\"" ++ fmtQ (qAdd diamondX shadowOffset) ++ "," ++
    fmtQ (qAdd (qSub diamondY diamondSize) shadowOffset) ++ " " ++
    fmtQ (qAdd (qAdd diamondX diamondSize) shadowOffset) ++ "," ++
    fmtQ (qAdd diamondY shadowOffset) ++ " " ++
    fmtQ (qAdd diamondX shadowOffset) ++ "," ++
    fmtQ (qAdd (qAdd diamondY diamondSize) shadowOffset) ++ " " ++
    fmtQ (qAdd (qSub diamondX diamondSize) shadowOffset) ++ "," ++
    fmtQ (qAdd diamondY shadowOffset) ++ "\" " ++
    "fill=\"#00000020\" stroke=\"none\"/>\n"

/-- The diamond polygon of `_draw_conditional`. -/
def condDiamond (diamondX diamondY diamondSize : ℚ) : String :=
  "  <polygon points=\"" ++ fmtQ diamondX ++ "," ++ fmtQ (qSub diamondY diamondSize) ++ " " ++
    fmtQ (qAdd diamondX diamondSize) ++ "," ++ fmtQ diamondY ++ " " ++
    fmtQ diamondX ++ "," ++ fmtQ (qAdd diamondY diamondSize) ++ " " ++
    fmtQ (qSub diamondX diamondSize) ++ "," ++ fmtQ diamondY ++ "\" " ++
    "fill=\"#ffffcc\" stroke=\"" ++ STROKE_COLOR ++ "\" stroke-width=\"2\"/>\n"

/-- The module-to-diamond stem line of `_draw_conditional`. -/
def condStem (fromX fromY diamondX diamondY diamondSize : ℚ) : String :=
  "  <line x1=\"" ++ fmtQ fromX ++ "\" y1=\"" ++ fmtQ fromY ++
    "\" x2=\"" ++ fmtQ diamondX ++ "\" y2=\"" ++ fmtQ (qSub diamondY diamondSize) ++
    "\" stroke=\"" ++ STROKE_COLOR ++ "\" stroke-width=\"2\"/>\n"

/-- `_draw_conditional`: an undeclared source yields `''`; the shadow, the
diamond and the stem are emitted unconditionally, then one arrow per
*declared* branch target. -/
def drawConditional (mods : List (String × ModuleData)) (cond : Conditional) :
    Except PyErr String :=
  match mods.lookup cond.src with
  | none => Except.ok ""
  | some fm =>
    match fm.pos with
    | none => Except.error PyErr.keyError
    | some (fx0, flv) =>
      let fromX := qAdd fx0 (qDiv2 MODULE_WIDTH)
      let fromY := qAdd (levelY flv) MODULE_HEIGHT
      let diamondSize : ℚ := 20
      let diamondX := fromX
      let diamondY := qAdd fromY 30
      match condArrows mods diamondX diamondY diamondSize cond.toList with
      | Except.error e => Except.error e
      | Except.ok arrows =>
        Except.ok
          ("<g class=\"conditional\">\n" ++
           condShadow diamondX diamondY diamondSize 2 ++
           condDiamond diamondX diamondY diamondSize ++
           condStem fromX fromY diamondX diamondY diamondSize ++
           arrows ++
           "</g>\n")

/-! ## `generate_svg` -/

/-- Sequential string-building over a list with Python-exception
propagation (the `svg += draw(...)` loops of `generate_svg`). -/
def concatM {α : Type} (f : α → Except PyErr String) : List α → Except PyErr String
  | [] => Except.ok ""
  | a :: rest =>
    match f a with
    | Except.error e => Except.error e
    | Except.ok s =>
      match concatM f rest with
      | Except.error e => Except.error e
      | Except.ok s2 => Except.ok (s ++ s2)

/-- The `(from, to)` keys of `connection_groups` in first-occurrence order
(Python dict key order). -/
def groupPairs (conns : List Connection) : List (String × String) :=
  conns.foldl (fun acc c => if (c.src, c.dst) ∈ acc then acc else acc ++ [(c.src, c.dst)]) []

/-- Draw one duplicate group: the `i`-th of `n` gets
`offset_multiplier = i - (n-1)/2` (or `0` when alone). -/
def drawGroup (mods : List (String × ModuleData)) (group : List Connection) :
    Except PyErr String :=
  concatM (fun p => drawConnection mods p.2 (offsetMultiplier group.length p.1)) group.enum

/-- The grouped connection pass of `generate_svg`. -/
def connectionsSvg (mods : List (String × ModuleData)) (conns : List Connection) :
    Except PyErr String :=
  concatM
    (fun key => drawGroup mods (conns.filter (fun c => c.src = key.1 ∧ c.dst = key.2)))
    (groupPairs conns)

/-- The storage pass of `generate_svg` (`enumerate(self.storages)`). -/
def storagesSvg (levels : List (ℕ × List String)) (storages : List StorageData) : String :=
  joinSep "" (storages.enum.map (fun p => drawStorage levels p.2 p.1))

/-- The fixed `<defs>` marker block. -/
def defsBlock : String :=
  "<defs>\n    <marker id=\"arrowhead\" markerWidth=\"10\" markerHeight=\"10\" refX=\"9\" refY=\"3\" orient=\"auto\">\n      <polygon points=\"0 0, 10 3, 0 6\" fill=\"#333333\"/>\n    </marker>\n    <marker id=\"small-arrowhead\" markerWidth=\"8\" markerHeight=\"8\" refX=\"7\" refY=\"2.5\" orient=\"auto\">\n      <polygon points=\"0 0, 8 2.5, 0 5\" fill=\"#333333\"/>\n    </marker>\n  </defs>\n"

/-- The degenerate-input placeholder SVG. -/
def noModulesSvg : String :=
  "<svg xmlns=\"http://www.w3.org/2000/svg\" width=\"200\" height=\"100\"><text x=\"10\" y=\"50\">No modules defined</text></svg>"

/-- `generate_svg`: parse, lay out, and assemble the SVG document. -/
def generateSvg (chartDef : String) : Except PyErr String :=
  match parseChart chartDef with
  | Except.error e => Except.error e
  | Except.ok st0 =>
    match calculatePositions st0 with
    | Except.error e => Except.error e
    | Except.ok st =>
      match st.modules with
      | [] => Except.ok noModulesSvg
      | m0 :: mrest =>
        let getXY : String × ModuleData → Except PyErr (ℚ × ℕ) := fun p =>
          match p.2.pos with
          | some pr => Except.ok pr
          | none => Except.error PyErr.keyError
        match getXY m0 with
        | Except.error e => Except.error e
        | Except.ok p0 =>
          match mrest.mapM getXY with
          | Except.error e => Except.error e
          | Except.ok prs =>
            let minX := qSub ((prs.map Prod.fst).foldl min p0.1) 50
            let maxX := qAdd (qAdd ((prs.map Prod.fst).foldl max p0.1) MODULE_WIDTH) 50
            let minY := qSub ((prs.map (fun pr => levelY pr.2)).foldl min (levelY p0.2)) 80
            let maxYmods :=
              qAdd (qAdd ((prs.map (fun pr => levelY pr.2)).foldl max (levelY p0.2)) MODULE_HEIGHT) 50
            let maxY :=
              if st.storages.isEmpty then maxYmods
              else
                let maxLevel := if st.levels.isEmpty then 0 else levelsMaxKey st.levels
                qAdd (qAdd (qMul (qOfNat (maxLevel + 1)) (qAdd MODULE_HEIGHT MODULE_SPACING_Y))
                  MODULE_HEIGHT) 50
            let widthv := qSub maxX minX
            let heightv := qSub maxY minY
            let header :=
              "<svg xmlns=\"http://www.w3.org/2000/svg\" viewBox=\"" ++ fmtQ minX ++ " " ++
              fmtQ minY ++ " " ++ fmtQ widthv ++ " " ++ fmtQ heightv ++
              "\" class=\"structure-chart\" style=\"max-width: 100%; height: auto;\">\n"
            match concatM (drawLoop st.modules st.connections) st.loops with
            | Except.error e => Except.error e
            | Except.ok loopsS =>
              match concatM (drawConditional st.modules) st.conditionals with
              | Except.error e => Except.error e
              | Except.ok condsS =>
                match connectionsSvg st.modules st.connections with
                | Except.error e => Except.error e
                | Except.ok connsS =>
                  match concatM (fun p => drawModule p.1 p.2) st.modules with
                  | Except.error e => Except.error e
                  | Except.ok modsS =>
                    Except.ok (header ++ defsBlock ++ loopsS ++ condsS ++ connsS ++ modsS ++
                      storagesSvg st.levels st.storages ++ "</svg>")

/-! ## MD5 (for the content-addressed diagram id)

`hashlib.md5` re-implemented over byte lists; 32-bit words are `ℕ`
reduced mod `2^32`. -/

/-- The 64 sine-derived round constants of MD5 (RFC 1321). -/
def md5K : List ℕ :=
  [3614090360, 3905402710, 606105819, 3250441966, 4118548399, 1200080426, 2821735955,
   4249261313, 1770035416, 2336552879, 4294925233, 2304563134, 1804603682, 4254626195,
   2792965006, 1236535329, 4129170786, 3225465664, 643717713, 3921069994, 3593408605,
   38016083, 3634488961, 3889429448, 568446438, 3275163606, 4107603335, 1163531501,
   2850285829, 4243563512, 1735328473, 2368359562, 4294588738, 2272392833, 1839030562,
   4259657740, 2763975236, 1272893353, 4139469664, 3200236656, 681279174, 3936430074,
   3572445317, 76029189, 3654602809, 3873151461, 530742520, 3299628645, 4096336452,
   1126891415, 2878612391, 4237533241, 1700485571, 2399980690, 4293915773, 2240044497,
   1873313359, 4264355552, 2734768916, 1309151649, 4149444226, 3174756917, 718787259,
   3951481745]

/-- The per-round left-rotation amounts of MD5 (RFC 1321). -/
def md5S : List ℕ :=
  [7, 12, 17, 22, 7, 12, 17, 22, 7, 12, 17, 22, 7, 12, 17, 22,
   5, 9, 14, 20, 5, 9, 14, 20, 5, 9, 14, 20, 5, 9, 14, 20,
   4, 11, 16, 23, 4, 11, 16, 23, 4, 11, 16, 23, 4, 11, 16, 23,
   6, 10, 15, 21, 6, 10, 15, 21, 6, 10, 15, 21, 6, 10, 15, 21]

/-- 32-bit complement. -/
def md5not (x : ℕ) : ℕ := 4294967295 - x % 4294967296

/-- 32-bit left rotation (the argument is already reduced). -/
def rotl32 (x s : ℕ) : ℕ := (x * 2 ^ s + x / 2 ^ (32 - s)) % 4294967296

/-- One MD5 round on the running `(a, b, c, d)` state. -/
def md5round (M : List ℕ) (st : ℕ × ℕ × ℕ × ℕ) (i : ℕ) : ℕ × ℕ × ℕ × ℕ :=
  let a := st.1
  let b := st.2.1
  let c := st.2.2.1
  let d := st.2.2.2
  let f :=
    if i < 16 then (b &&& c) ||| (md5not b &&& d)
    else if i < 32 then (d &&& b) ||| (md5not d &&& c)
    else if i < 48 then b ^^^ c ^^^ d
    else c ^^^ (b ||| md5not d)
  let g :=
    if i < 16 then i
    else if i < 32 then (5 * i + 1) % 16
    else if i < 48 then (3 * i + 5) % 16
    else (7 * i) % 16
  let f2 := (f + a + md5K.getD i 0 + M.getD g 0) % 4294967296
  (d, (b + rotl32 f2 (md5S.getD i 0)) % 4294967296, b, c)

/-- Process one 64-byte chunk. -/
def md5chunk (st : ℕ × ℕ × ℕ × ℕ) (chunk : List ℕ) : ℕ × ℕ × ℕ × ℕ :=
  let M := (List.range 16).map (fun j =>
    chunk.getD (4 * j) 0 + 256 * chunk.getD (4 * j + 1) 0 +
    65536 * chunk.getD (4 * j + 2) 0 + 16777216 * chunk.getD (4 * j + 3) 0)
  let r := (List.range 64).foldl (md5round M) st
  ((st.1 + r.1) % 4294967296, (st.2.1 + r.2.1) % 4294967296,
   (st.2.2.1 + r.2.2.1) % 4294967296, (st.2.2.2 + r.2.2.2) % 4294967296)

/-- Little-endian byte expansion. -/
def leBytes (n count : ℕ) : List ℕ :=
  (List.range count).map (fun i => n / 2 ^ (8 * i) % 256)

/-- MD5 padding: `0x80`, zeros to 56 mod 64, then the 64-bit little-endian
bit length. -/
def md5pad (msg : List ℕ) : List ℕ :=
  let zeros := (120 - (msg.length + 1) % 64) % 64
  msg ++ [128] ++ List.replicate zeros 0 ++ leBytes (msg.length * 8 % 2 ^ 64) 8

/-- Split into 64-byte chunks. -/
def chunks64 : ℕ → List ℕ → List (List ℕ)
  | 0, _ => []
  | _ + 1, [] => []
  | fuel + 1, l => l.take 64 :: chunks64 fuel (l.drop 64)

/-- MD5 digest of a byte list, as 16 bytes. -/
def md5bytes (msg : List ℕ) : List ℕ :=
  let padded := md5pad msg
  let r := (chunks64 (padded.length + 1) padded).foldl md5chunk
    (1732584193, 4023233417, 2562383102, 271733878)
  leBytes r.1 4 ++ leBytes r.2.1 4 ++ leBytes r.2.2.1 4 ++ leBytes r.2.2.2 4

def hexDigit (n : ℕ) : Char :=
  if n < 10 then Char.ofNat (48 + n) else Char.ofNat (87 + n)

def byteHex (b : ℕ) : String :=
  String.mk [hexDigit (b / 16), hexDigit (b % 16)]

/-- `hashlib.md5(s.encode()).hexdigest()`. -/
def md5hex (s : String) : String :=
  joinSep "" ((md5bytes (s.toUTF8.toList.map (fun b => b.toNat))).map byteHex)

/-! ## The preprocessor (`StructureChartPreprocessor.run`) -/

/-- `hashlib.md5(chart_def.encode()).hexdigest()[:8]`. -/
def diagramId (chartDef : String) : String :=
  String.mk ((md5hex chartDef).toList.take 8)

def divOpenLine (id : String) : String :=
  "<div class=\"diagram-container\" id=\"diagram-" ++ id ++ "\">"

def buttonLine (id : String) : String :=
  "<button class=\"diagram-expand-btn\" onclick=\"openDiagramModal(\u0027diagram-" ++ id ++
    "\u0027)\">\uF8FF\u00FC\u00EE\u00E7 View Larger</button>"

/-- The five lines the preprocessor emits for one chart block (container
opening, generated SVG, expand button, container close, blank line). -/
def diagramLines (chartDef : String) : Except PyErr (List String) :=
  match generateSvg chartDef with
  | Except.error e => Except.error e
  | Except.ok svg =>
    let id := diagramId chartDef
    Except.ok [divOpenLine id, svg, buttonLine id, "</div>", ""]

/-- The line loop of `run`: `inChart`/`chartAcc` model the
`in_structure_chart`/`chart_lines` state.  A line stripping to
`'```structure-chart'` (re)opens a chart block regardless of the current
state, as in the source. -/
def runLines : List String → Bool → List String → Except PyErr (List String)
  | [], _, _ => Except.ok []
  | l :: rest, inChart, chartAcc =>
    if pyStrip l = "```structure-chart" then runLines rest true []
    else if inChart ∧ pyStrip l = "```" then
      match diagramLines (joinSep "\n" chartAcc) with
      | Except.error e => Except.error e
      | Except.ok d =>
        match runLines rest false [] with
        | Except.error e => Except.error e
        | Except.ok out => Except.ok (d ++ out)
    else if inChart then runLines rest true (chartAcc ++ [l])
    else
      match runLines rest false chartAcc with
      | Except.error e => Except.error e
      | Except.ok out => Except.ok (l :: out)

/-- `StructureChartPreprocessor.run`. -/
def run (lines : List String) : Except PyErr (List String) :=
  runLines lines false []

/-! ## Derived observers and spec-side definitions -/

/-- The `(x, layout-level)` data of every module after parse + layout
(keeps declaration order; `none` marks a module the layout never reached). -/
def modulePositions (input : String) : Except PyErr (List (String × Option (ℚ × ℕ))) :=
  match parseChart input with
  | Except.error e => Except.error e
  | Except.ok st =>
    match calculatePositions st with
    | Except.error e => Except.error e
    | Except.ok st2 => Except.ok (st2.modules.map (fun p => (p.1, p.2.pos)))

/-- Spec-side definition (C2, follows the spec's words, *not* the code): a
module's parent is the source of the **first** edge targeting it —
connections in declaration order first, then conditionals. -/
def specFirstEdgeParent (conns : List Connection) (conds : List Conditional)
    (m : String) : Option String :=
  match conns.find? (fun c => c.dst = m) with
  | some c => some c.src
  | none => (conds.find? (fun cd => m ∈ cd.toList)).map (fun cd => cd.src)

/-- What the code actually stores (amended C2): the source of the **last**
connection targeting `m`, if any. -/
def lastConnParent (conns : List Connection) (m : String) : Option String :=
  conns.foldl (fun acc c => if c.dst = m then some c.src else acc) none

/-- What the code actually stores (amended C2): among conditionals, the
source of the first conditional listing `m` as a branch. -/
def firstCondParent (conds : List Conditional) (m : String) : Option String :=
  (conds.find? (fun cd => m ∈ cd.toList)).map (fun cd => cd.src)

/-- Concrete input for the storage-row claim: `b` is laid out one row below
`a` while both were declared at indentation level 0, and a storage follows. -/
def c6Input : String :=
  "module a \"A\"\nmodule b \"B\"\na -> b\nstorage s \"S\""

/-- The layout invariant carried through `_position_tree` (parametrised over
the fixed declared-module predicate `D`): a successful pass preserves the
module domain, moves the cursor right, advances by at least one module pitch
when the sibling list holds a declared module, confines every module it
(re)positions to the band `[x, e)` at depth `≥ y`, and keeps any two
modules it positions at equal depth horizontally disjoint. -/
def TreeGood (D : String → Bool) (f : List String → List (String × ModuleData) → ℚ → ℕ →
    Except PyErr (List (String × ModuleData) × ℚ)) : Prop :=
  ∀ ids mods x y mods' e,
    (∀ m, (mods.lookup m).isSome = D m) →
    f ids mods x y = Except.ok (mods', e) →
    (∀ m, (mods'.lookup m).isSome = D m) ∧
    x ≤ e ∧
    ((∃ m ∈ ids, D m = true) → x + (MODULE_WIDTH + MODULE_SPACING_X) ≤ e) ∧
    (∀ m d, mods'.lookup m = some d → mods.lookup m ≠ some d →
      ∃ xm lv, d.pos = some (xm, lv) ∧ x ≤ xm ∧ xm + MODULE_WIDTH ≤ e ∧ y ≤ lv) ∧
    (∀ m m' d d' xm lv xm' lv', m ≠ m' →
      mods'.lookup m = some d → mods.lookup m ≠ some d →
      mods'.lookup m' = some d' → mods.lookup m' ≠ some d' →
      d.pos = some (xm, lv) → d'.pos = some (xm', lv') → lv = lv' →
      xm + MODULE_WIDTH ≤ xm' ∨ xm' + MODULE_WIDTH ≤ xm)

/-- A small concrete chart state (as produced by parsing
`module a/b/c` with connections `a -> b`, `a -> c`) used to witness the
layout theorems. -/
def c8State : ChartState :=
  { modules := [("a", ⟨"A", 0, "module", none⟩), ("b", ⟨"B", 0, "module", none⟩),
                ("c", ⟨"C", 0, "module", none⟩)]
    connections := [⟨"a", "b", "normal", "forward", ""⟩, ⟨"a", "c", "normal", "forward", ""⟩]
    conditionals := []
    loops := []
    storages := []
    levels := [(0, ["a", "b", "c"])] }

/-- `c8State` after layout: `b` and `c` sit side by side on row 1 and `a` is
centered over them. -/
def c8StateLaidOut : ChartState :=
  { c8State with
    modules := [("a", ⟨"A", 0, "module", some (100, 0)⟩),
                ("b", ⟨"B", 0, "module", some (0, 1)⟩),
                ("c", ⟨"C", 0, "module", some (160, 1)⟩)] }

/-! ## Theorems -/

/-- **C1** (code bug): `generate_svg` is *not* total.  The unmatched
connection line `'a ->'` makes `_parse_connection` evaluate `rest[0]` on an
empty list (`IndexError`), and a declared module whose only incoming edge
comes from an undeclared module is never positioned, so `generate_svg`
raises `KeyError` when collecting `all_x`.  Both exceptions propagate out of
the compile call, contradicting the claimed totality. -/
theorem c1_compile_not_total :
    generateSvg "a ->" = Except.error PyErr.indexError ∧
    generateSvg "module a \"A\"\nu -> a" = Except.error PyErr.keyError := by
  decide

/-- **C5** (counterexample): on `'a -> b data x y'` the parser stores label
`"x"` and silently drops `"y"`, where the claim predicts the folded label
`"x y"`. -/
theorem c5_counterexample :
    parseConnectionContent "a -> b data x y" =
      Except.ok (some ⟨"a", "b", "data", "forward", "x"⟩) ∧
    ("x" : String) ≠ "x y" := by
  decide

/-- **C5** (amended): full trailing-token grammar of `_parse_connection` on a
line that splits into exactly two halves around `->` (tokens are the
`split(None, 3)` pieces of the stripped right half, so at most four appear and
the fourth keeps its internal whitespace).  No token after the target gives
kind `'normal'`, direction `'forward'`, empty label; one token is the kind;
token 2 equal to `forward`/`backward` sets the direction, and the remainder
token (quote-stripped) — empty when absent — forms the label; but when token 2
is *not* a direction keyword, that token **alone** (quote-stripped) becomes
the label, any remaining tokens are discarded — not folded — and the
direction stays `'forward'`.  An empty token list (nothing after the arrow)
raises `IndexError` at `rest[0]`. -/
theorem c5_label_token_rule (content f r : String)
    (hsplit : pySplitOn content "->" = [f, r]) :
    (pySplitWs (pyStrip r) (some 3) = [] →
      parseConnectionContent content = Except.error PyErr.indexError) ∧
    (∀ dst, pySplitWs (pyStrip r) (some 3) = [dst] →
      parseConnectionContent content =
        Except.ok (some ⟨pyStrip f, dst, "normal", "forward", ""⟩)) ∧
    (∀ dst t1, pySplitWs (pyStrip r) (some 3) = [dst, t1] →
      parseConnectionContent content =
        Except.ok (some ⟨pyStrip f, dst, t1, "forward", ""⟩)) ∧
    (∀ dst t1 t2, (t2 = "forward" ∨ t2 = "backward") →
      pySplitWs (pyStrip r) (some 3) = [dst, t1, t2] →
      parseConnectionContent content =
        Except.ok (some ⟨pyStrip f, dst, t1, t2, ""⟩)) ∧
    (∀ dst t1 t2 t3, (t2 = "forward" ∨ t2 = "backward") →
      pySplitWs (pyStrip r) (some 3) = [dst, t1, t2, t3] →
      parseConnectionContent content =
        Except.ok (some ⟨pyStrip f, dst, t1, t2, stripQuotes t3⟩)) ∧
    (∀ dst t1 t2 rest3, t2 ≠ "forward" → t2 ≠ "backward" →
      pySplitWs (pyStrip r) (some 3) = dst :: t1 :: t2 :: rest3 →
      parseConnectionContent content =
        Except.ok (some ⟨pyStrip f, dst, t1, "forward", stripQuotes t2⟩)) := by
  refine ⟨?_, ?_, ?_, ?_, ?_, ?_⟩
  · intro htoks
    unfold parseConnectionContent
    rw [hsplit]
    dsimp only
    rw [htoks]
  · intro dst htoks
    unfold parseConnectionContent
    rw [hsplit]
    dsimp only
    rw [htoks]
  · intro dst t1 htoks
    unfold parseConnectionContent
    rw [hsplit]
    dsimp only
    rw [htoks]
  · intro dst t1 t2 hdir htoks
    unfold parseConnectionContent
    rw [hsplit]
    dsimp only
    rw [htoks]
    dsimp only
    rw [if_pos hdir]
  · intro dst t1 t2 t3 hdir htoks
    unfold parseConnectionContent
    rw [hsplit]
    dsimp only
    rw [htoks]
    dsimp only
    rw [if_pos hdir]
  · intro dst t1 t2 rest3 hf hb htoks
    unfold parseConnectionContent
    rw [hsplit]
    dsimp only
    rw [htoks]
    dsimp only
    rw [if_neg (by simp [hf, hb])]

theorem c5_label_token_rule_witness :
    pySplitOn "a -> b data backward x y" "->" = ["a ", " b data backward x y"] ∧
    pySplitWs (pyStrip " b data backward x y") (some 3) =
      ["b", "data", "backward", "x y"] ∧
    parseConnectionContent "a -> b data backward x y" =
      Except.ok (some ⟨"a", "b", "data", "backward", "x y"⟩) :=
  ⟨by decide, by decide,
   (c5_label_token_rule "a -> b data backward x y" "a " " b data backward x y"
      (by decide)).2.2.2.2.1 "b" "data" "backward" "x y" (Or.inr rfl) (by decide)⟩

/-- **C3** (counterexample): two parallel `data`/`control` connections do
*not* get distinct indicator positions — for `n = 2` both duplicates sit at
fraction `0.3`, because `int(-0.5) = int(0.5) = 0`. -/
theorem c3_counterexample :
    indicatorLinePosition (offsetMultiplier 2 0) = some (mkRat 3 10) ∧
    indicatorLinePosition (offsetMultiplier 2 1) = some (mkRat 3 10) := by
  decide

/-- **C3** (amended): the `i`-th of `n` duplicates reads the position table
at `min(int(i - (n-1)/2), 3)` under Python list indexing: for `n ≤ 10` the
lookup always succeeds (though positions need not be distinct), a truncated
offset `≥ 3` saturates at the last slot `0.85`, and at `n = 11` the first
duplicate's negative index runs off the table (`IndexError`). -/
theorem c3_fanout (n i : ℕ) (h1 : 1 ≤ n) (h2 : i < n) :
    (n ≤ 10 → (indicatorLinePosition (offsetMultiplier n i)).isSome) ∧
    (3 ≤ pyTrunc (offsetMultiplier n i) →
      indicatorLinePosition (offsetMultiplier n i) = some (mkRat 17 20)) ∧
    (n = 11 → i = 0 → indicatorLinePosition (offsetMultiplier n i) = none) := by
  refine ⟨fun hn => ?_, fun h3 => ?_, fun hn hi => ?_⟩
  · interval_cases n <;> interval_cases i <;> decide
  · have hmin : min (pyTrunc (offsetMultiplier n i)) 3 = 3 := min_eq_right h3
    unfold indicatorLinePosition
    rw [hmin]
    decide
  · subst hn; subst hi; decide

theorem c3_fanout_witness :
    (1 ≤ 9 ∧ (8 : ℕ) < 9) ∧
    (indicatorLinePosition (offsetMultiplier 9 8)).isSome :=
  ⟨⟨by decide, by decide⟩, (c3_fanout 9 8 (by decide) (by decide)).1 (by decide)⟩

/-- **C4** (counterexample): a connection from the undeclared id `u` to the
declared module `b` removes `b` from the root set, so the layout never
assigns `b` coordinates at all — the dangling connection *does* alter the
positions of declared modules (`b`: `some (160, 0)` without it, `none` with
it). -/
theorem c4_counterexample :
    modulePositions "module a \"A\"\nmodule b \"B\"\nu -> b" =
      Except.ok [("a", some (0, 0)), ("b", none)] ∧
    modulePositions "module a \"A\"\nmodule b \"B\"" =
      Except.ok [("a", some (0, 0)), ("b", some (160, 0))] := by
  decide

/-- **C4** (amended): a connection with an undeclared endpoint still
contributes no connector element — `_draw_connection` returns `''` before
reading any position — but its presence can change the coordinates assigned
to declared modules, because the hierarchy derivation never checks that
endpoints are declared. -/
theorem c4_dangling_connector (mods : List (String × ModuleData))
    (conn : Connection) (om : ℚ)
    (h : mods.lookup conn.src = none ∨ mods.lookup conn.dst = none) :
    drawConnection mods conn om = Except.ok "" := by
  unfold drawConnection
  rcases h with h | h
  · rw [h]
  · rw [h]
    cases mods.lookup conn.src <;> rfl

theorem c4_dangling_connector_witness :
    ([] : List (String × ModuleData)).lookup "a" = none ∧
    drawConnection [] ⟨"a", "b", "data", "forward", ""⟩ 0 = Except.ok "" :=
  ⟨by decide,
   c4_dangling_connector [] ⟨"a", "b", "data", "forward", ""⟩ 0 (Or.inl (by decide))⟩

/-- **C6** (counterexample): with `a`, `b` both declared at indentation 0
and an `a -> b` connection, module `b` is laid out on row `y = 130`, and the
storage row is *also* placed at `y = 130` — on the deepest occupied row of
the laid-out tree, not immediately below it (below would be `y = 260`):
`_draw_storage` uses the parse-time indentation levels, not tree depth. -/
theorem c6_counterexample :
    (parseChart c6Input).map (fun st => (storagePosition st.levels 0).2) =
      Except.ok 130 ∧
    modulePositions c6Input =
      Except.ok [("a", some (20, 0)), ("b", some (0, 1))] ∧
    levelY 1 = 130 ∧
    (130 : ℚ) ≠ qAdd (levelY 1) (qAdd MODULE_HEIGHT MODULE_SPACING_Y) := by
  decide

/-- **C6** (amended): storages are rendered in declaration order on one
shared row at `y = (maxParseLevel + 1) * (height + spacing_y)` — one row
pitch below the deepest *parse-time indentation* level, which coincides with
the row below the deepest laid-out row only when indentation matches tree
depth — with the `i`-th storage at `x = -width/2 + i*(width + spacing_x)`. -/
theorem c6_storage_row (levels : List (ℕ × List String)) (i j : ℕ) :
    (storagePosition levels i).1 =
      -(MODULE_WIDTH / 2) + (i : ℚ) * (MODULE_WIDTH + MODULE_SPACING_X) ∧
    (storagePosition levels i).2 =
      (((if levels.isEmpty then 0 else levelsMaxKey levels) + 1 : ℕ) : ℚ) *
        (MODULE_HEIGHT + MODULE_SPACING_Y) ∧
    (storagePosition levels i).2 = (storagePosition levels j).2 := by
  refine ⟨?_, ?_, ?_⟩ <;>
    simp [storagePosition, qAdd_eq, qSub_eq, qMul_eq, qDiv2_eq, qNeg_eq, qOfNat_eq]

/-! ### Dictionary lemmas -/

theorem lookup_mapUpdate {β : Type} (d : List (String × β)) (k k' : String) (v : β) :
    (d.map (fun p => if p.1 = k then (p.1, v) else p)).lookup k' =
      if k' = k then (d.lookup k).map (fun _ => v) else d.lookup k' := by
  induction d with
  | nil => simp [List.lookup]
  | cons p rest ih =>
    obtain ⟨a, b⟩ := p
    simp only [List.map_cons]
    by_cases hak : a = k
    · rw [if_pos hak]
      subst hak
      by_cases hk : k' = a
      · subst hk
        simp [List.lookup_cons]
      · have hba : (k' == a) = false := beq_eq_false_iff_ne.mpr hk
        simp [List.lookup_cons, hba, ih, hk]
    · rw [if_neg hak]
      by_cases hk : k' = a
      · subst hk
        have hne : ¬ (k' = k) := fun hh => hak hh
        simp [List.lookup_cons, hne]
      · have hba : (k' == a) = false := beq_eq_false_iff_ne.mpr hk
        have hka2 : (k == a) = false := beq_eq_false_iff_ne.mpr (fun hh => hak hh.symm)
        simp [List.lookup_cons, hba, hka2, ih]

theorem lookup_appendSingle {β : Type} (d : List (String × β)) (k k' : String) (v : β) :
    (d ++ [(k, v)]).lookup k' =
      match d.lookup k' with
      | some w => some w
      | none => if k' = k then some v else none := by
  induction d with
  | nil =>
    by_cases hk : k' = k
    · subst hk
      simp [List.lookup_cons]
    · have hba : (k' == k) = false := beq_eq_false_iff_ne.mpr hk
      simp [List.lookup_cons, hba, hk]
  | cons p rest ih =>
    obtain ⟨a, b⟩ := p
    by_cases hka : k' = a
    · subst hka
      simp [List.lookup_cons, List.cons_append]
    · have hba : (k' == a) = false := beq_eq_false_iff_ne.mpr hka
      simp [List.lookup_cons, List.cons_append, hba, ih]

theorem lookup_dictSet {β : Type} (d : List (String × β)) (k k' : String) (v : β) :
    (dictSet d k v).lookup k' = if k' = k then some v else d.lookup k' := by
  unfold dictSet
  by_cases hmem : (d.lookup k).isSome
  · rw [if_pos hmem, lookup_mapUpdate]
    by_cases hk : k' = k
    · subst hk
      obtain ⟨w, hw⟩ := Option.isSome_iff_exists.mp hmem
      simp [hw]
    · simp [hk]
  · rw [if_neg hmem, lookup_appendSingle]
    by_cases hk : k' = k
    · subst hk
      rw [Option.not_isSome_iff_eq_none.mp hmem]
    · cases hd : d.lookup k' <;> simp [hk, hd]

/-! ### C2: how the parent map is actually built -/

theorem parents_applyConn (maps : List (String × List String) × List (String × String))
    (c : Connection) (m : String) :
    ((applyConn maps c).2).lookup m =
      if c.dst = m then some c.src else (maps.2).lookup m := by
  show (dictSet maps.2 c.dst c.src).lookup m = _
  rw [lookup_dictSet]
  by_cases h : m = c.dst
  · simp [h]
  · rw [if_neg h, if_neg (fun hh : c.dst = m => h hh.symm)]

theorem parents_foldConns (conns : List Connection) :
    ∀ maps m, (((conns.foldl applyConn maps)).2).lookup m =
      conns.foldl (fun acc c => if c.dst = m then some c.src else acc)
        ((maps.2).lookup m) := by
  induction conns with
  | nil => intro maps m; rfl
  | cons c rest ih =>
    intro maps m
    simp only [List.foldl_cons]
    rw [ih, parents_applyConn]

theorem parents_applyCondChild (parent : String)
    (maps : List (String × List String) × List (String × String)) (child m : String) :
    ((applyCondChild parent maps child).2).lookup m =
      match (maps.2).lookup m with
      | some p => some p
      | none => if m = child then some parent else none := by
  unfold applyCondChild
  by_cases hs : ((maps.2).lookup child).isSome
  · simp only [hs, if_pos]
    cases hm : (maps.2).lookup m with
    | some p => simp
    | none =>
      by_cases hmc : m = child
      · subst hmc; rw [hm] at hs; simp at hs
      · simp [hmc]
  · simp only [hs, if_neg, Bool.false_eq_true, not_false_iff]
    rw [lookup_dictSet]
    cases hm : (maps.2).lookup m with
    | some p =>
      by_cases hmc : m = child
      · subst hmc; rw [hm] at hs; simp at hs
      · simp [hmc]
    | none => by_cases hmc : m = child <;> simp [hmc]

theorem parents_applyCondList (parent : String) (toL : List String) :
    ∀ maps m, (((toL.foldl (applyCondChild parent) maps)).2).lookup m =
      match (maps.2).lookup m with
      | some p => some p
      | none => if m ∈ toL then some parent else none := by
  induction toL with
  | nil =>
    intro maps m
    simp only [List.foldl_nil]
    cases hm : (maps.2).lookup m <;> simp
  | cons child rest ih =>
    intro maps m
    simp only [List.foldl_cons]
    rw [ih, parents_applyCondChild]
    cases hm : (maps.2).lookup m with
    | some p => simp
    | none =>
      by_cases hmc : m = child
      · simp [hmc]
      · simp [hmc, List.mem_cons, fun hh : m = child => hmc hh]

theorem parents_applyCond (maps : List (String × List String) × List (String × String))
    (cd : Conditional) (m : String) :
    ((applyCond maps cd).2).lookup m =
      match (maps.2).lookup m with
      | some p => some p
      | none => if m ∈ cd.toList then some cd.src else none :=
  parents_applyCondList cd.src cd.toList maps m

theorem parents_foldConds (conds : List Conditional) :
    ∀ maps m, (((conds.foldl applyCond maps)).2).lookup m =
      match (maps.2).lookup m with
      | some p => some p
      | none => firstCondParent conds m := by
  induction conds with
  | nil =>
    intro maps m
    simp only [List.foldl_nil]
    cases hm : (maps.2).lookup m <;> simp [firstCondParent]
  | cons cd rest ih =>
    intro maps m
    simp only [List.foldl_cons]
    rw [ih, parents_applyCond]
    cases hm : (maps.2).lookup m with
    | some p => simp
    | none =>
      by_cases hmc : m ∈ cd.toList
      · simp [hmc, firstCondParent, List.find?]
      · simp [hmc, firstCondParent, List.find?]

/-- **C2** (counterexample): with the two connections `a -> c` then
`b -> c`, the parent stored for `c` is `b` — the source of the **last**
connection targeting it — while the claim's first-edge rule would give `a`:
the connection scan overwrites `parents[child]` unconditionally. -/
theorem c2_counterexample :
    ((buildMaps [⟨"a", "c", "normal", "forward", ""⟩,
                 ⟨"b", "c", "normal", "forward", ""⟩] []).2).lookup "c" = some "b" ∧
    specFirstEdgeParent [⟨"a", "c", "normal", "forward", ""⟩,
                         ⟨"b", "c", "normal", "forward", ""⟩] [] "c" = some "a" ∧
    (some "b" : Option String) ≠ some "a" := by
  decide

/-- **C2** (amended): a module's stored parent is the source of the **last**
connection that targets it (each connection scan overwrites); only when no
connection targets it does the first conditional listing it assign the
parent, and conditionals never override a connection-assigned parent. -/
theorem c2_parent_assignment (conns : List Connection) (conds : List Conditional)
    (m : String) :
    ((buildMaps conns conds).2).lookup m =
      match lastConnParent conns m with
      | some p => some p
      | none => firstCondParent conds m := by
  unfold buildMaps
  rw [parents_foldConds, parents_foldConns]
  rfl

/-! ### C10: conditional gates -/

theorem condArrows_ok (mods : List (String × ModuleData)) (dx dy ds : ℚ)
    (toL : List String)
    (h : ∀ t tm, t ∈ toL → mods.lookup t = some tm → tm.pos.isSome) :
    ∃ s, condArrows mods dx dy ds toL = Except.ok s ∧
      condArrows mods dx dy ds (toL.filter (fun t => (mods.lookup t).isSome)) =
        Except.ok s := by
  induction toL with
  | nil => exact ⟨"", rfl, rfl⟩
  | cons t rest ih =>
    obtain ⟨s, hs1, hs2⟩ :=
      ih (fun t' tm ht' htm => h t' tm (List.mem_cons_of_mem _ ht') htm)
    cases hlt : mods.lookup t with
    | none =>
      refine ⟨s, ?_, ?_⟩
      · simp [condArrows, hlt, hs1]
      · simp [List.filter_cons, hlt, hs2]
    | some tm =>
      have hpos : tm.pos.isSome := h t tm (List.mem_cons_self t rest) hlt
      cases hpr : tm.pos with
      | none => rw [hpr] at hpos; simp at hpos
      | some pr =>
        obtain ⟨tx, tlv⟩ := pr
        refine ⟨"  <line x1=\"" ++ fmtQ dx ++ "\" y1=\"" ++ fmtQ (qAdd dy ds) ++
          "\" x2=\"" ++ fmtQ (qAdd tx (qDiv2 MODULE_WIDTH)) ++ "\" y2=\"" ++
          fmtQ (levelY tlv) ++ "\" stroke=\"" ++ STROKE_COLOR ++
          "\" stroke-width=\"2\" marker-end=\"url(#arrowhead)\"/>\n" ++ s, ?_, ?_⟩
        · simp [condArrows, hlt, hpr, hs1]
        · simp [List.filter_cons, hlt, condArrows, hpr, hs2]

/-- **C10**: for a conditional whose source is a declared (and positioned)
module, the emitted group always contains the diamond polygon and the
module-to-diamond stem line — even when none of the branch targets is
declared — and only the per-branch arrows are gated on target existence:
dropping the undeclared targets from the branch list leaves the output
unchanged. -/
theorem c10_conditional_always_draws (mods : List (String × ModuleData))
    (cond : Conditional) (fm : ModuleData) (x : ℚ) (lvl : ℕ)
    (hsrc : mods.lookup cond.src = some fm) (hpos : fm.pos = some (x, lvl))
    (htargets : ∀ t tm, t ∈ cond.toList → mods.lookup t = some tm → tm.pos.isSome) :
    ∃ s, drawConditional mods cond = Except.ok s ∧
      (∃ pre post, s = pre ++
        condDiamond (qAdd x (qDiv2 MODULE_WIDTH))
          (qAdd (qAdd (levelY lvl) MODULE_HEIGHT) 30) 20 ++ post) ∧
      (∃ pre post, s = pre ++
        condStem (qAdd x (qDiv2 MODULE_WIDTH)) (qAdd (levelY lvl) MODULE_HEIGHT)
          (qAdd x (qDiv2 MODULE_WIDTH)) (qAdd (qAdd (levelY lvl) MODULE_HEIGHT) 30) 20 ++
        post) ∧
      drawConditional mods
        { cond with toList := cond.toList.filter (fun t => (mods.lookup t).isSome) } =
        Except.ok s := by
  obtain ⟨arrows, ha1, ha2⟩ :=
    condArrows_ok mods (qAdd x (qDiv2 MODULE_WIDTH))
      (qAdd (qAdd (levelY lvl) MODULE_HEIGHT) 30) 20 cond.toList htargets
  refine ⟨"<g class=\"conditional\">\n" ++
      condShadow (qAdd x (qDiv2 MODULE_WIDTH)) (qAdd (qAdd (levelY lvl) MODULE_HEIGHT) 30) 20 2 ++
      condDiamond (qAdd x (qDiv2 MODULE_WIDTH)) (qAdd (qAdd (levelY lvl) MODULE_HEIGHT) 30) 20 ++
      condStem (qAdd x (qDiv2 MODULE_WIDTH)) (qAdd (levelY lvl) MODULE_HEIGHT)
        (qAdd x (qDiv2 MODULE_WIDTH)) (qAdd (qAdd (levelY lvl) MODULE_HEIGHT) 30) 20 ++
      arrows ++ "</g>\n", ?_, ?_, ?_, ?_⟩
  · simp [drawConditional, hsrc, hpos, ha1]
  · exact ⟨"<g class=\"conditional\">\n" ++
      condShadow (qAdd x (qDiv2 MODULE_WIDTH)) (qAdd (qAdd (levelY lvl) MODULE_HEIGHT) 30) 20 2,
      condStem (qAdd x (qDiv2 MODULE_WIDTH)) (qAdd (levelY lvl) MODULE_HEIGHT)
        (qAdd x (qDiv2 MODULE_WIDTH)) (qAdd (qAdd (levelY lvl) MODULE_HEIGHT) 30) 20 ++
      arrows ++ "</g>\n", by simp [String.append_assoc]⟩
  · exact ⟨"<g class=\"conditional\">\n" ++
      condShadow (qAdd x (qDiv2 MODULE_WIDTH)) (qAdd (qAdd (levelY lvl) MODULE_HEIGHT) 30) 20 2 ++
      condDiamond (qAdd x (qDiv2 MODULE_WIDTH)) (qAdd (qAdd (levelY lvl) MODULE_HEIGHT) 30) 20,
      arrows ++ "</g>\n", by simp [String.append_assoc]⟩
  · simp [drawConditional, hsrc, hpos, ha2]

theorem c10_conditional_always_draws_witness :
    (([("m", ⟨"M", 0, "module", some (0, 0)⟩)] : List (String × ModuleData)).lookup "m" =
      some ⟨"M", 0, "module", some (0, 0)⟩) ∧
    (∃ s, drawConditional [("m", ⟨"M", 0, "module", some (0, 0)⟩)] ⟨"m", ["zz"]⟩ =
        Except.ok s ∧
      (∃ pre post, s = pre ++
        condDiamond (qAdd 0 (qDiv2 MODULE_WIDTH))
          (qAdd (qAdd (levelY 0) MODULE_HEIGHT) 30) 20 ++ post) ∧
      (∃ pre post, s = pre ++
        condStem (qAdd 0 (qDiv2 MODULE_WIDTH)) (qAdd (levelY 0) MODULE_HEIGHT)
          (qAdd 0 (qDiv2 MODULE_WIDTH)) (qAdd (qAdd (levelY 0) MODULE_HEIGHT) 30) 20 ++
        post) ∧
      drawConditional [("m", ⟨"M", 0, "module", some (0, 0)⟩)]
        { Conditional.mk "m" ["zz"] with
          toList := ["zz"].filter
            (fun t => (([("m", ⟨"M", 0, "module", some (0, 0)⟩)] :
              List (String × ModuleData)).lookup t).isSome) } =
        Except.ok s) :=
  ⟨by decide,
   c10_conditional_always_draws [("m", ⟨"M", 0, "module", some (0, 0)⟩)]
     ⟨"m", ["zz"]⟩ ⟨"M", 0, "module", some (0, 0)⟩ 0 0 (by decide) (by decide)
     (by
       intro t tm ht htm
       simp only [List.mem_singleton] at ht
       subst ht
       simp [List.lookup_cons] at htm)⟩

/-! ### C9: determinism and content-addressing of the preprocessor -/

theorem runLines_passthrough (pre : List String) :
    ∀ (rest acc : List String),
    (∀ l ∈ pre, pyStrip l ≠ "```structure-chart") →
    runLines (pre ++ rest) false acc =
      match runLines rest false acc with
      | Except.error e => Except.error e
      | Except.ok out => Except.ok (pre ++ out) := by
  induction pre with
  | nil =>
    intro rest acc _
    cases h : runLines rest false acc <;> simp [h]
  | cons l pre' ih =>
    intro rest acc hpre
    have hl := hpre l (List.mem_cons_self l pre')
    have hpre' := fun l' hl' => hpre l' (List.mem_cons_of_mem _ hl')
    simp only [List.cons_append, runLines]
    rw [if_neg hl]
    rw [if_neg (by simp)]
    rw [if_neg (by simp)]
    simp only [List.append_eq]
    rw [ih (rest) acc hpre']
    cases h : runLines rest false acc <;> simp [h]

theorem runLines_chart (chart : List String) :
    ∀ (post acc : List String),
    (∀ l ∈ chart, pyStrip l ≠ "```structure-chart" ∧ pyStrip l ≠ "```") →
    runLines (chart ++ ["```"] ++ post) true acc =
      match diagramLines (joinSep "\n" (acc ++ chart)) with
      | Except.error e => Except.error e
      | Except.ok d =>
        match runLines post false [] with
        | Except.error e => Except.error e
        | Except.ok out => Except.ok (d ++ out) := by
  induction chart with
  | nil =>
    intro post acc _
    simp only [List.nil_append, List.append_nil, List.cons_append, runLines]
    rw [if_neg (by decide)]
    rw [if_pos (by exact ⟨trivial, by decide⟩)]
    simp only [List.append_eq, List.nil_append]
  | cons l chart' ih =>
    intro post acc hchart
    have hl := hchart l (List.mem_cons_self l chart')
    have hchart' := fun l' hl' => hchart l' (List.mem_cons_of_mem _ hl')
    simp only [List.cons_append, runLines]
    rw [if_neg hl.1]
    rw [if_neg (by simp [hl.2])]
    simp only [if_true, List.append_eq]
    rw [ih post (acc ++ [l]) hchart']
    rw [List.append_assoc acc [l] chart']
    rfl

/-- **C9**: compiling is deterministic and content-addressed.  Wherever a
`structure-chart` fence appears, the five emitted lines are a pure function
of the fenced chart text alone — independent of the surrounding document —
and the container id inside them is the truncated MD5 hash of that raw text
(`diagramLines` uses `diagramId = md5hex(chartDef)[:8]`); two documents
containing the same chart text therefore receive byte-identical markup for
that block. -/
theorem c9_deterministic_block (pre chart post : List String)
    (hpre : ∀ l ∈ pre, pyStrip l ≠ "```structure-chart")
    (hchart : ∀ l ∈ chart, pyStrip l ≠ "```structure-chart" ∧ pyStrip l ≠ "```") :
    run (pre ++ ["```structure-chart"] ++ chart ++ ["```"] ++ post) =
      match diagramLines (joinSep "\n" chart) with
      | Except.error e => Except.error e
      | Except.ok d =>
        match run post with
        | Except.error e => Except.error e
        | Except.ok out => Except.ok (pre ++ (d ++ out)) := by
  unfold run
  have hassoc : pre ++ ["```structure-chart"] ++ chart ++ ["```"] ++ post =
      pre ++ ("```structure-chart" :: (chart ++ ["```"] ++ post)) := by
    simp [List.append_assoc]
  rw [hassoc]
  rw [runLines_passthrough pre ("```structure-chart" :: (chart ++ ["```"] ++ post)) [] hpre]
  have hstep : runLines ("```structure-chart" :: (chart ++ ["```"] ++ post)) false [] =
      runLines (chart ++ ["```"] ++ post) true [] := by
    simp only [runLines]
    rw [if_pos (by decide)]
  rw [hstep]
  rw [runLines_chart chart post [] hchart]
  simp only [List.nil_append]
  cases h1 : diagramLines (joinSep "\n" chart) with
  | error e => rfl
  | ok d => cases h2 : runLines post false [] <;> rfl

theorem c9_deterministic_block_witness :
    (∀ l ∈ ["intro text"], pyStrip l ≠ "```structure-chart") ∧
    run (["intro text"] ++ ["```structure-chart"] ++ ["module a \"A\""] ++ ["```"] ++ []) =
      match diagramLines (joinSep "\n" ["module a \"A\""]) with
      | Except.error e => Except.error e
      | Except.ok d =>
        match run [] with
        | Except.error e => Except.error e
        | Except.ok out => Except.ok (["intro text"] ++ (d ++ out)) :=
  ⟨by decide,
   c9_deterministic_block ["intro text"] ["module a \"A\""] [] (by decide) (by decide)⟩

/-! ### C7/C8: layout geometry -/

theorem lookup_mapModify {β : Type} (d : List (String × β)) (k k' : String) (f : β → β) :
    (d.map (fun p => if p.1 = k then (p.1, f p.2) else p)).lookup k' =
      if k' = k then (d.lookup k).map f else d.lookup k' := by
  induction d with
  | nil => simp [List.lookup]
  | cons p rest ih =>
    obtain ⟨a, b⟩ := p
    simp only [List.map_cons]
    by_cases hak : a = k
    · rw [if_pos hak]
      subst hak
      by_cases hk : k' = a
      · subst hk
        simp [List.lookup_cons]
      · have hba : (k' == a) = false := beq_eq_false_iff_ne.mpr hk
        simp [List.lookup_cons, hba, ih, hk]
    · rw [if_neg hak]
      by_cases hk : k' = a
      · subst hk
        have hne : ¬ (k' = k) := fun hh => hak hh
        simp [List.lookup_cons, hne]
      · have hba : (k' == a) = false := beq_eq_false_iff_ne.mpr hk
        have hka2 : (k == a) = false := beq_eq_false_iff_ne.mpr (fun hh => hak hh.symm)
        simp [List.lookup_cons, hba, hka2, ih]

theorem lookup_setPos (mods : List (String × ModuleData)) (mid : String) (x : ℚ)
    (lvl : ℕ) (m : String) :
    (setPos mods mid x lvl).lookup m =
      if m = mid then (mods.lookup mid).map (fun d => { d with pos := some (x, lvl) })
      else mods.lookup m := by
  unfold setPos
  exact lookup_mapModify mods mid m (fun d => { d with pos := some (x, lvl) })

theorem isSome_setPos (mods : List (String × ModuleData)) (mid : String) (x : ℚ)
    (lvl : ℕ) (m : String) :
    ((setPos mods mid x lvl).lookup m).isSome = (mods.lookup m).isSome := by
  rw [lookup_setPos]
  by_cases h : m = mid
  · subst h
    cases mods.lookup m <;> simp
  · simp [h]

theorem lookup_mem {β : Type} (d : List (String × β)) (k : String) (v : β)
    (h : d.lookup k = some v) : (k, v) ∈ d := by
  induction d with
  | nil => simp [List.lookup] at h
  | cons p rest ih =>
    obtain ⟨a, b⟩ := p
    by_cases hka : k = a
    · subst hka
      simp [List.lookup_cons] at h
      simp [h]
    · have hba : (k == a) = false := beq_eq_false_iff_ne.mpr hka
      simp only [List.lookup_cons, hba] at h
      exact List.mem_cons_of_mem _ (ih h)

theorem advance_eq (x : ℚ) :
    qAdd (qAdd x MODULE_WIDTH) MODULE_SPACING_X = x + 160 := by
  rw [qAdd_eq, qAdd_eq, MODULE_WIDTH, MODULE_SPACING_X]
  ring

theorem parentX_eq (x e : ℚ) :
    qDiv2 (qSub (qAdd x e) MODULE_WIDTH) = (x + e - 120) / 2 := by
  rw [qDiv2_eq, qSub_eq, qAdd_eq, MODULE_WIDTH]

/-- The fully stuck recursion bottom satisfies the invariant vacuously. -/
theorem treeGood_bottom (D : String → Bool) :
    TreeGood D (fun _ _ _ _ => Except.error PyErr.recursionError) := by
  intro ids mods x y mods' e _ hok
  exact absurd hok (by simp)

theorem pitch_eq : MODULE_WIDTH + MODULE_SPACING_X = (160 : ℚ) := by
  rw [ MODULE_WIDTH, MODULE_SPACING_X]
  norm_num

/-- One sibling pass preserves the layout invariant, assuming the children
map only mentions declared modules and the child recursion satisfies the
invariant. -/
theorem treeGood_step (D : String → Bool) (ch : List (String × List String))
    (hch : ∀ mid cs, ch.lookup mid = some cs → ∀ c ∈ cs, D c = true)
    (recur : List String → List (String × ModuleData) → ℚ → ℕ →
      Except PyErr (List (String × ModuleData) × ℚ))
    (hrec : TreeGood D recur) :
    TreeGood D (positionStep ch recur) := by
  intro ids
  induction ids with
  | nil =>
    intro mods x y mods' e hdom hok
    simp only [positionStep, Except.ok.injEq, Prod.mk.injEq] at hok
    obtain ⟨rfl, rfl⟩ := hok
    refine ⟨hdom, le_refl x, ?_, ?_, ?_⟩
    · rintro ⟨m, hm, -⟩
      simp at hm
    · intro m d hm hm0
      exact absurd hm hm0
    · intro m m' d d' xm lv xm' lv' hne hm hm0 hm' hm0' hdp hdp' hlv
      exact absurd hm hm0
  | cons mid rest ih =>
    intro mods x y mods' e hdom hok
    simp only [positionStep] at hok
    by_cases hdecl : (mods.lookup mid).isSome = true
    case neg =>
      rw [if_neg hdecl] at hok
      obtain ⟨hdom', hxe, hspan, hchg, hpair⟩ := ih mods x y mods' e hdom hok
      refine ⟨hdom', hxe, ?_, hchg, hpair⟩
      rintro ⟨m, hm, hDm⟩
      rcases List.mem_cons.mp hm with rfl | hm'
      · rw [hdom m] at hdecl
        exact absurd hDm hdecl
      · exact hspan ⟨m, hm', hDm⟩
    case pos =>
      rw [if_pos hdecl] at hok
      by_cases hempty : (chGet ch mid).isEmpty = true
      · -- leaf branch
        rw [if_pos hempty, advance_eq] at hok
        obtain ⟨hdom', hxe, hspan, hchg, hpair⟩ :=
          ih (setPos mods mid x y) (x + 160) y mods' e
            (fun m => by rw [isSome_setPos]; exact hdom m) hok
        obtain ⟨d0, hd0⟩ := Option.isSome_iff_exists.mp hdecl
        have hclassify : ∀ m d, mods'.lookup m = some d → mods.lookup m ≠ some d →
            (m = mid ∧ d.pos = some (x, y)) ∨
            (mods'.lookup m = some d ∧ (setPos mods mid x y).lookup m ≠ some d) := by
          intro m d hm hm0
          by_cases hset : (setPos mods mid x y).lookup m = some d
          · left
            rw [lookup_setPos] at hset
            by_cases hmmid : m = mid
            · subst hmmid
              rw [if_pos rfl, hd0] at hset
              simp only [Option.map_some', Option.some.injEq] at hset
              exact ⟨rfl, by rw [← hset]⟩
            · rw [if_neg hmmid] at hset
              exact absurd hset hm0
          · exact Or.inr ⟨hm, hset⟩
        refine ⟨hdom', by linarith, ?_, ?_, ?_⟩
        · intro _
          rw [pitch_eq]
          exact hxe
        · intro m d hm hm0
          rcases hclassify m d hm hm0 with ⟨rfl, hdpA⟩ | ⟨hm2, hset⟩
          · exact ⟨x, y, hdpA, le_refl x, by rw [ MODULE_WIDTH]; linarith, le_refl y⟩
          · obtain ⟨xm, lv, hdp, hx1, hx2, hy1⟩ := hchg m d hm2 hset
            exact ⟨xm, lv, hdp, by linarith, hx2, hy1⟩
        · intro m m' d d' xm lv xm' lv' hne hm hm0 hm' hm0' hdp hdp' hlv
          rcases hclassify m d hm hm0 with ⟨rfl, hdpA⟩ | ⟨hm2, hset⟩ <;>
            rcases hclassify m' d' hm' hm0' with ⟨heq', hdpA'⟩ | ⟨hm2', hset'⟩
          · exact absurd heq'.symm hne
          · -- m = mid (leaf at x), m' placed by the rest of the pass in [x+160, e)
            obtain ⟨xm2, lv2, hdp2, hx1, hx2, hy1⟩ := hchg m' d' hm2' hset'
            have h1 := hdpA.symm.trans hdp
            simp only [Option.some.injEq, Prod.mk.injEq] at h1
            have h2 := hdp2.symm.trans hdp'
            simp only [Option.some.injEq, Prod.mk.injEq] at h2
            left
            rw [ MODULE_WIDTH]
            linarith [h1.1, h2.1, hx1]
          · -- symmetric
            subst heq'
            obtain ⟨xm2, lv2, hdp2, hx1, hx2, hy1⟩ := hchg m d hm2 hset
            have h1 := hdpA'.symm.trans hdp'
            simp only [Option.some.injEq, Prod.mk.injEq] at h1
            have h2 := hdp2.symm.trans hdp
            simp only [Option.some.injEq, Prod.mk.injEq] at h2
            right
            rw [ MODULE_WIDTH]
            linarith [h1.1, h2.1, hx1]
          · exact hpair m m' d d' xm lv xm' lv' hne hm2 hset hm2' hset' hdp hdp' hlv
      · -- children branch
        rw [if_neg hempty] at hok
        cases hre : recur (chGet ch mid) mods x (y + 1) with
        | error err =>
          rw [hre] at hok
          exact absurd hok (by simp)
        | ok pr =>
          obtain ⟨mods1, e1⟩ := pr
          rw [hre] at hok
          dsimp only at hok
          rw [parentX_eq] at hok
          obtain ⟨hdom1, hxe1, hspan1, hchg1, hpair1⟩ :=
            hrec (chGet ch mid) mods x (y + 1) mods1 e1 hdom hre
          have hchspan : x + 160 ≤ e1 := by
            have hne2 : chGet ch mid ≠ [] := by
              intro hc
              rw [hc] at hempty
              simp at hempty
            cases hl : ch.lookup mid with
            | none =>
              refine absurd ?_ hne2
              simp [chGet, hl]
            | some cs =>
              have hcs : chGet ch mid = cs := by simp [chGet, hl]
              rw [hcs] at hne2
              obtain ⟨c0, hc0⟩ := List.exists_mem_of_ne_nil cs hne2
              have hd : D c0 = true := hch mid cs hl c0 hc0
              have hs := hspan1 ⟨c0, by rw [hcs]; exact hc0, hd⟩
              rw [pitch_eq] at hs
              exact hs
          have hpx1 : x ≤ (x + e1 - 120) / 2 := by linarith
          have hpx2 : (x + e1 - 120) / 2 + 120 ≤ e1 := by linarith
          obtain ⟨hdom', hxe', hspan', hchg', hpair'⟩ :=
            ih (setPos mods1 mid ((x + e1 - 120) / 2) y) e1 y mods' e
              (fun m => by rw [isSome_setPos]; exact hdom1 m) hok
          have hd1 : (mods1.lookup mid).isSome = true := by
            rw [hdom1 mid, ← hdom mid]
            exact hdecl
          obtain ⟨d1, hd1e⟩ := Option.isSome_iff_exists.mp hd1
          have hclassify : ∀ m d, mods'.lookup m = some d → mods.lookup m ≠ some d →
              (m = mid ∧ d.pos = some ((x + e1 - 120) / 2, y)) ∨
              (mods'.lookup m = some d ∧
                (setPos mods1 mid ((x + e1 - 120) / 2) y).lookup m ≠ some d) ∨
              (mods1.lookup m = some d ∧ mods.lookup m ≠ some d) := by
            intro m d hm hm0
            by_cases hset : (setPos mods1 mid ((x + e1 - 120) / 2) y).lookup m = some d
            · rw [lookup_setPos] at hset
              by_cases hmmid : m = mid
              · subst hmmid
                rw [if_pos rfl, hd1e] at hset
                simp only [Option.map_some', Option.some.injEq] at hset
                exact Or.inl ⟨rfl, by rw [← hset]⟩
              · rw [if_neg hmmid] at hset
                exact Or.inr (Or.inr ⟨hset, hm0⟩)
            · exact Or.inr (Or.inl ⟨hm, hset⟩)
          refine ⟨hdom', by linarith, ?_, ?_, ?_⟩
          · intro _
            rw [pitch_eq]
            linarith
          · intro m d hm hm0
            rcases hclassify m d hm hm0 with ⟨rfl, hdpA⟩ | ⟨hm2, hset⟩ | ⟨hm1, hm00⟩
            · exact ⟨(x + e1 - 120) / 2, y, hdpA, hpx1,
                by rw [ MODULE_WIDTH]; linarith, le_refl y⟩
            · obtain ⟨xm, lv, hdp, hx1, hx2, hy1⟩ := hchg' m d hm2 hset
              exact ⟨xm, lv, hdp, by linarith, hx2, hy1⟩
            · obtain ⟨xm, lv, hdp, hx1, hx2, hy1⟩ := hchg1 m d hm1 hm00
              exact ⟨xm, lv, hdp, hx1, by linarith, by omega⟩
          · intro m m' d d' xm lv xm' lv' hne hm hm0 hm' hm0' hdp hdp' hlv
            rcases hclassify m d hm hm0 with ⟨rfl, hdpA⟩ | ⟨hm2, hset⟩ | ⟨hm1, hm00⟩ <;>
              rcases hclassify m' d' hm' hm0' with ⟨heq', hdpA'⟩ | ⟨hm2', hset'⟩ |
                ⟨hm1', hm00'⟩
            · exact absurd heq'.symm hne
            · -- head vs rest: [·, px+120] then [e1, ·)
              obtain ⟨xm2, lv2, hdp2, hx1, hx2, hy1⟩ := hchg' m' d' hm2' hset'
              have h1 := hdpA.symm.trans hdp
              simp only [Option.some.injEq, Prod.mk.injEq] at h1
              have h2 := hdp2.symm.trans hdp'
              simp only [Option.some.injEq, Prod.mk.injEq] at h2
              left
              rw [ MODULE_WIDTH]
              linarith [h1.1, h2.1, hx1]
            · -- head vs child phase: depths differ
              obtain ⟨xm2, lv2, hdp2, hx1, hx2, hy1⟩ := hchg1 m' d' hm1' hm00'
              have h1 := hdpA.symm.trans hdp
              simp only [Option.some.injEq, Prod.mk.injEq] at h1
              have h2 := hdp2.symm.trans hdp'
              simp only [Option.some.injEq, Prod.mk.injEq] at h2
              exfalso
              obtain ⟨h1a, h1b⟩ := h1
              obtain ⟨h2a, h2b⟩ := h2
              omega
            · -- rest vs head
              subst heq'
              obtain ⟨xm2, lv2, hdp2, hx1, hx2, hy1⟩ := hchg' m d hm2 hset
              have h1 := hdpA'.symm.trans hdp'
              simp only [Option.some.injEq, Prod.mk.injEq] at h1
              have h2 := hdp2.symm.trans hdp
              simp only [Option.some.injEq, Prod.mk.injEq] at h2
              right
              rw [ MODULE_WIDTH]
              linarith [h1.1, h2.1, hx1]
            · exact hpair' m m' d d' xm lv xm' lv' hne hm2 hset hm2' hset' hdp hdp' hlv
            · -- rest vs child phase
              obtain ⟨xm2, lv2, hdp2, hx1, hx2, hy1⟩ := hchg' m d hm2 hset
              obtain ⟨xm3, lv3, hdp3, hx3, hx4, hy3⟩ := hchg1 m' d' hm1' hm00'
              have h2 := hdp2.symm.trans hdp
              simp only [Option.some.injEq, Prod.mk.injEq] at h2
              have h3 := hdp3.symm.trans hdp'
              simp only [Option.some.injEq, Prod.mk.injEq] at h3
              right
              rw [ MODULE_WIDTH]
              linarith [h2.1, h3.1, hx1, hx4, show MODULE_WIDTH = (120 : ℚ) from rfl]
            · -- child phase vs head: depths differ
              obtain ⟨xm2, lv2, hdp2, hx1, hx2, hy1⟩ := hchg1 m d hm1 hm00
              have h1 := hdpA'.symm.trans hdp'
              simp only [Option.some.injEq, Prod.mk.injEq] at h1
              have h2 := hdp2.symm.trans hdp
              simp only [Option.some.injEq, Prod.mk.injEq] at h2
              exfalso
              obtain ⟨h1a, h1b⟩ := h1
              obtain ⟨h2a, h2b⟩ := h2
              omega
            · -- child phase vs rest
              obtain ⟨xm2, lv2, hdp2, hx1, hx2, hy1⟩ := hchg1 m d hm1 hm00
              obtain ⟨xm3, lv3, hdp3, hx3, hx4, hy3⟩ := hchg' m' d' hm2' hset'
              have h2 := hdp2.symm.trans hdp
              simp only [Option.some.injEq, Prod.mk.injEq] at h2
              have h3 := hdp3.symm.trans hdp'
              simp only [Option.some.injEq, Prod.mk.injEq] at h3
              left
              rw [ MODULE_WIDTH]
              linarith [h2.1, h3.1, hx2, hx3, show MODULE_WIDTH = (120 : ℚ) from rfl]
            · exact hpair1 m m' d d' xm lv xm' lv' hne hm1 hm00 hm1' hm00' hdp hdp' hlv

theorem positionTreeFuel_zero (ch : List (String × List String)) :
    positionTreeFuel ch 0 =
      positionStep ch (fun _ _ _ _ => Except.error PyErr.recursionError) := rfl

theorem positionTreeFuel_succ (ch : List (String × List String)) (f : ℕ) :
    positionTreeFuel ch (f + 1) = positionStep ch (positionTreeFuel ch f) := rfl

theorem treeGood_fuel (D : String → Bool) (ch : List (String × List String))
    (hch : ∀ mid cs, ch.lookup mid = some cs → ∀ c ∈ cs, D c = true) (fuel : ℕ) :
    TreeGood D (positionTreeFuel ch fuel) := by
  induction fuel with
  | zero => exact treeGood_step D ch hch _ (treeGood_bottom D)
  | succ f ihf => exact treeGood_step D ch hch _ ihf

/-- **C8** (counterexample): with `a`, `b` declared and the single connection
`a -> u` to an undeclared id, `a` still counts as having children, its
(empty) child span collapses, and `a` is placed at `x = -60` while the root
`b` is placed at `x = 0`: two modules on the same final row whose x-ranges
`[-60, 60)` and `[0, 120)` overlap. -/
theorem c8_counterexample :
    modulePositions "module a \"A\"\nmodule b \"B\"\na -> u" =
      Except.ok [("a", some (-60, 0)), ("b", some (0, 0))] ∧
    ¬(((-60 : ℚ) + MODULE_WIDTH ≤ 0) ∨ ((0 : ℚ) + MODULE_WIDTH ≤ -60)) := by
  constructor
  · decide
  · rw [ MODULE_WIDTH]
    push_neg
    constructor <;> norm_num

/-- **C8** (amended): provided every id appearing in a children list of the
derived hierarchy is a declared module, the layout invariant holds: after a
successful `_calculate_positions`, any two distinct modules placed on the
same final level have disjoint x-ranges `[x, x + width)`. -/
theorem c8_no_overlap (st st' : ChartState)
    (hinit : ∀ p, p ∈ st.modules → p.2.pos = none)
    (hdecl : ∀ mid cs,
      ((buildMaps st.connections st.conditionals).1).lookup mid = some cs →
      ∀ c ∈ cs, (st.modules.lookup c).isSome = true)
    (hok : calculatePositions st = Except.ok st')
    (m m' : String) (d d' : ModuleData) (xm xm' : ℚ) (lv : ℕ)
    (hne : m ≠ m')
    (hm : st'.modules.lookup m = some d) (hm' : st'.modules.lookup m' = some d')
    (hp : d.pos = some (xm, lv)) (hp' : d'.pos = some (xm', lv)) :
    xm + MODULE_WIDTH ≤ xm' ∨ xm' + MODULE_WIDTH ≤ xm := by
  simp only [calculatePositions] at hok
  cases h0 : positionTreeFuel (buildMaps st.connections st.conditionals).1 RECURSION_FUEL
      ((st.modules.map Prod.fst).filter
        (fun mid => (((buildMaps st.connections st.conditionals).2).lookup mid).isNone))
      st.modules 0 0 with
  | error err =>
    rw [h0] at hok
    exact absurd hok (by simp)
  | ok pr =>
    obtain ⟨mods2, e2⟩ := pr
    rw [h0] at hok
    simp only [Except.ok.injEq] at hok
    subst hok
    simp only at hm hm'
    have hGood := treeGood_fuel (fun c => (st.modules.lookup c).isSome)
      (buildMaps st.connections st.conditionals).1 hdecl RECURSION_FUEL
    obtain ⟨-, -, -, -, hpair⟩ :=
      hGood ((st.modules.map Prod.fst).filter
          (fun mid => (((buildMaps st.connections st.conditionals).2).lookup mid).isNone))
        st.modules 0 0 mods2 e2 (fun m => rfl) h0
    have hfresh : ∀ (mm : String) (dd : ModuleData), dd.pos ≠ none →
        st.modules.lookup mm ≠ some dd := by
      intro mm dd hdd hc
      exact hdd (hinit (mm, dd) (lookup_mem st.modules mm dd hc))
    exact hpair m m' d d' xm lv xm' lv hne hm
      (hfresh m d (by rw [hp]; simp)) hm' (hfresh m' d' (by rw [hp']; simp)) hp hp' rfl

theorem c8_no_overlap_witness :
    calculatePositions c8State = Except.ok c8StateLaidOut ∧
    ((0 : ℚ) + MODULE_WIDTH ≤ 160 ∨ (160 : ℚ) + MODULE_WIDTH ≤ 0) := by
  refine ⟨by decide, ?_⟩
  refine c8_no_overlap c8State c8StateLaidOut ?_ ?_ (by decide) "b" "c"
      ⟨"B", 0, "module", some (0, 1)⟩ ⟨"C", 0, "module", some (160, 1)⟩ 0 160 1
      (by decide) (by decide) (by decide) rfl rfl
  · decide
  · intro mid cs hl c hc
    have hb : (buildMaps c8State.connections c8State.conditionals).1 =
        [("a", ["b", "c"])] := by decide
    rw [hb] at hl
    by_cases hq : mid = "a"
    · subst hq
      simp only [List.lookup_cons, show ("a" == "a") = true from rfl] at hl
      obtain rfl : ["b", "c"] = cs := by
        simpa using hl
      rcases List.mem_cons.mp hc with rfl | h2
      · decide
      · rcases List.mem_cons.mp h2 with rfl | h3
        · decide
        · simp at h3
    · have hba : (mid == "a") = false := beq_eq_false_iff_ne.mpr hq
      simp only [List.lookup_cons, hba] at hl
      simp at hl

/-- Wherever a successful pass (re)positions a module whose children list
is non-empty, the stored x was computed from an actual child-layout call:
there are a state, a span start `s` and a span end `e'` with the child list
laid out at the module's level plus one and `x = (s + e')/2 - width/2`. -/
theorem positionTree_trace (ch : List (String × List String)) :
    ∀ (fuel : ℕ) (ids : List String) (mods : List (String × ModuleData)) (x : ℚ) (y : ℕ)
      (mods' : List (String × ModuleData)) (e : ℚ),
    positionTreeFuel ch fuel ids mods x y = Except.ok (mods', e) →
    ∀ m d xm lv, mods'.lookup m = some d → mods.lookup m ≠ some d →
      d.pos = some (xm, lv) → chGet ch m ≠ [] →
      ∃ f' s stA stB e', positionTreeFuel ch f' (chGet ch m) stA s (lv + 1) =
          Except.ok (stB, e') ∧ xm = (s + e') / 2 - MODULE_WIDTH / 2 := by
  intro fuel
  induction fuel with
  | zero =>
    intro ids
    induction ids with
    | nil =>
      intro mods x y mods' e hok m d xm lv hm hm0 hdp hch2
      rw [positionTreeFuel_zero] at hok
      simp only [positionStep, Except.ok.injEq, Prod.mk.injEq] at hok
      obtain ⟨rfl, rfl⟩ := hok
      exact absurd hm hm0
    | cons mid rest ihl =>
      intro mods x y mods' e hok m d xm lv hm hm0 hdp hch2
      rw [positionTreeFuel_zero] at hok
      simp only [positionStep] at hok
      by_cases hdecl : (mods.lookup mid).isSome = true
      · rw [if_pos hdecl] at hok
        by_cases hempty : (chGet ch mid).isEmpty = true
        · rw [if_pos hempty, advance_eq] at hok
          by_cases hset : (setPos mods mid x y).lookup m = some d
          · rw [lookup_setPos] at hset
            by_cases hmmid : m = mid
            · subst hmmid
              exact absurd (List.isEmpty_iff.mp hempty) hch2
            · rw [if_neg hmmid] at hset
              exact absurd hset hm0
          · exact ihl (setPos mods mid x y) (x + 160) y mods' e hok m d xm lv hm hset hdp hch2
        · rw [if_neg hempty] at hok
          exact absurd hok (by simp)
      · rw [if_neg hdecl] at hok
        exact ihl mods x y mods' e hok m d xm lv hm hm0 hdp hch2
  | succ f ihf =>
    intro ids
    induction ids with
    | nil =>
      intro mods x y mods' e hok m d xm lv hm hm0 hdp hch2
      rw [positionTreeFuel_succ] at hok
      simp only [positionStep, Except.ok.injEq, Prod.mk.injEq] at hok
      obtain ⟨rfl, rfl⟩ := hok
      exact absurd hm hm0
    | cons mid rest ihl =>
      intro mods x y mods' e hok m d xm lv hm hm0 hdp hch2
      rw [positionTreeFuel_succ] at hok
      simp only [positionStep] at hok
      by_cases hdecl : (mods.lookup mid).isSome = true
      · rw [if_pos hdecl] at hok
        by_cases hempty : (chGet ch mid).isEmpty = true
        · rw [if_pos hempty, advance_eq] at hok
          by_cases hset : (setPos mods mid x y).lookup m = some d
          · rw [lookup_setPos] at hset
            by_cases hmmid : m = mid
            · subst hmmid
              exact absurd (List.isEmpty_iff.mp hempty) hch2
            · rw [if_neg hmmid] at hset
              exact absurd hset hm0
          · exact ihl (setPos mods mid x y) (x + 160) y mods' e hok m d xm lv hm hset hdp hch2
        · rw [if_neg hempty] at hok
          cases hre : positionTreeFuel ch f (chGet ch mid) mods x (y + 1) with
          | error err =>
            rw [hre] at hok
            exact absurd hok (by simp)
          | ok pr =>
            obtain ⟨mods1, e1⟩ := pr
            rw [hre] at hok
            dsimp only at hok
            rw [parentX_eq] at hok
            by_cases hset : (setPos mods1 mid ((x + e1 - 120) / 2) y).lookup m = some d
            · rw [lookup_setPos] at hset
              by_cases hmmid : m = mid
              · subst hmmid
                rw [if_pos rfl] at hset
                obtain ⟨d1, hd1, hd1e⟩ := Option.map_eq_some'.mp hset
                have hdpos : d.pos = some ((x + e1 - 120) / 2, y) := by
                  rw [← hd1e]
                rw [hdp] at hdpos
                simp only [Option.some.injEq, Prod.mk.injEq] at hdpos
                obtain ⟨hxm, hlv⟩ := hdpos
                refine ⟨f, x, mods, mods1, e1, ?_, ?_⟩
                · rw [hlv]
                  exact hre
                · rw [hxm, MODULE_WIDTH]
                  ring
              · rw [if_neg hmmid] at hset
                by_cases hpre : mods.lookup m = some d
                · exact absurd hpre hm0
                · exact ihf (chGet ch mid) mods x (y + 1) mods1 e1 hre m d xm lv hset hpre
                    hdp hch2
            · exact ihl (setPos mods1 mid ((x + e1 - 120) / 2) y) e1 y mods' e hok m d xm lv
                hm hset hdp hch2
      · rw [if_neg hdecl] at hok
        exact ihl mods x y mods' e hok m d xm lv hm hm0 hdp hch2

/-- Unfolding of one sibling step for a declared module with children: the
children are laid out first at the next depth and the pass continues from
the child span's end. -/
theorem positionTree_step_children (ch : List (String × List String)) (g : ℕ)
    (mid : String) (rest : List String) (mods0 : List (String × ModuleData))
    (x0 : ℚ) (y0 : ℕ)
    (hd : (mods0.lookup mid).isSome = true) (hne : ¬(chGet ch mid).isEmpty = true) :
    positionTreeFuel ch (g + 1) (mid :: rest) mods0 x0 y0 =
      match positionTreeFuel ch g (chGet ch mid) mods0 x0 (y0 + 1) with
      | Except.error err => Except.error err
      | Except.ok pr =>
        positionTreeFuel ch (g + 1) rest
          (setPos pr.1 mid (qDiv2 (qSub (qAdd x0 pr.2) MODULE_WIDTH)) y0) pr.2 y0 := by
  rw [positionTreeFuel_succ]
  show positionStep ch (positionTreeFuel ch g) (mid :: rest) mods0 x0 y0 = _
  simp only [positionStep]
  rw [if_pos hd, if_neg hne]
  cases h : positionTreeFuel ch g (chGet ch mid) mods0 x0 (y0 + 1) with
  | error err => rfl
  | ok pr =>
    obtain ⟨m1, e1⟩ := pr
    rfl

/-- **C7**: whenever `_position_tree` positions a module that has children
in the derived children map, the module's x is the midpoint of the span
`[childStartX, childEndX)` into which its children were just laid out,
minus half the module width — witnessed by the actual child-layout call at
the module's recorded level plus one — and the cursor the pass continues
with after such a module is exactly that span's end `childEndX`. -/
theorem c7_parent_centering (ch : List (String × List String)) :
    (∀ fuel ids mods x y mods' e m d xm lv,
      positionTreeFuel ch fuel ids mods x y = Except.ok (mods', e) →
      mods'.lookup m = some d → mods.lookup m ≠ some d →
      d.pos = some (xm, lv) → chGet ch m ≠ [] →
      ∃ f' s stA stB e',
        positionTreeFuel ch f' (chGet ch m) stA s (lv + 1) = Except.ok (stB, e') ∧
        xm = (s + e') / 2 - MODULE_WIDTH / 2) ∧
    (∀ g mid rest mods0 x0 y0,
      (mods0.lookup mid).isSome = true → ¬(chGet ch mid).isEmpty = true →
      positionTreeFuel ch (g + 1) (mid :: rest) mods0 x0 y0 =
        match positionTreeFuel ch g (chGet ch mid) mods0 x0 (y0 + 1) with
        | Except.error err => Except.error err
        | Except.ok pr =>
          positionTreeFuel ch (g + 1) rest
            (setPos pr.1 mid (qDiv2 (qSub (qAdd x0 pr.2) MODULE_WIDTH)) y0) pr.2 y0) :=
  ⟨fun fuel ids mods x y mods2 e m d xm lv hok hm hm0 hdp hch2 =>
     positionTree_trace ch fuel ids mods x y mods2 e hok m d xm lv hm hm0 hdp hch2,
   fun g mid rest mods0 x0 y0 hd hne =>
     positionTree_step_children ch g mid rest mods0 x0 y0 hd hne⟩

theorem c7_parent_centering_witness :
    positionTreeFuel [("a", ["b"])] 2 ["a"]
        [("a", ⟨"A", 0, "module", none⟩), ("b", ⟨"B", 0, "module", none⟩)] 0 0 =
      Except.ok ([("a", ⟨"A", 0, "module", some (20, 0)⟩),
                  ("b", ⟨"B", 0, "module", some (0, 1)⟩)], 160) ∧
    (∃ f' s stA stB e',
      positionTreeFuel [("a", ["b"])] f' (chGet [("a", ["b"])] "a") stA s (0 + 1) =
        Except.ok (stB, e') ∧
      (20 : ℚ) = (s + e') / 2 - MODULE_WIDTH / 2) :=
  ⟨by decide,
   (c7_parent_centering [("a", ["b"])]).1 2 ["a"]
     [("a", ⟨"A", 0, "module", none⟩), ("b", ⟨"B", 0, "module", none⟩)] 0 0
     [("a", ⟨"A", 0, "module", some (20, 0)⟩), ("b", ⟨"B", 0, "module", some (0, 1)⟩)] 160
     "a" ⟨"A", 0, "module", some (20, 0)⟩ 20 0
     (by decide) (by decide) (by decide) rfl (by decide)⟩

end StructureChart
